import Mathlib

/-!
Verification of the resilient fetch-and-extract pipeline of playwright-webrun.

This file contains a shallow embedding of the two pipeline versions of the
repository:

- src/app/page/v2/services/page_content.py (namespace V2): the stealth
  pipeline with route interception, a two-strategy navigation loop, the
  soft-404 classifier, the layered extraction chain and the text cleaner.
- src/app/page/v1/services/page_content.py (namespace V1): the retry loop
  (run), the navigation fallback with partial-content rescue and the
  cleanup helper.

Browser-side effects (creating contexts and pages, navigating, evaluating
script in the page, serializing the DOM, closing handles) are modelled by an
environment record that fixes the outcome of every external call, plus an
event trace recording which calls the pipeline made and in which order.
Pure Python string processing (the cleaner, the classifier script, the route
matcher) is translated function by function.

Modelling conventions:
- Python str.strip() / str.split / str.join and the regular expressions of
  the cleaner are implemented over List Char; character classes follow the
  ASCII reading of isalpha/isspace/lower (the data crossing these functions
  in the claims is ASCII).
- Exceptions are Except values; try/except/finally becomes explicit
  propagation; the finally block is appended to the trace on every path.
-/

namespace WebRun

/-- Python str.lower / JS toLowerCase, modelled as character-wise ASCII
lowercasing. -/
def pyLower (s : String) : String := ⟨s.data.map Char.toLower⟩

/-- Whitespace stripping on a character list: drop whitespace from both
ends (Python str.strip with no argument). -/
def stripChars (l : List Char) : List Char :=
  ((l.dropWhile Char.isWhitespace).reverse.dropWhile Char.isWhitespace).reverse

/-- Python str.strip(). -/
def pyStrip (s : String) : String := ⟨stripChars s.data⟩

/-- Decides whether needle occurs as a contiguous sublist of the list. -/
def subOccurs (needle : List Char) : List Char → Bool
  | [] => needle.isEmpty
  | c :: cs => needle.isPrefixOf (c :: cs) || subOccurs needle cs

/-- Python substring membership (needle in hay) and JS String.includes. -/
def containsSub (hay needle : String) : Bool := subOccurs needle.data hay.data

/-- Splitting a character list at every occurrence of a separator character,
Python str.split(sep) for a one-character separator. -/
def splitCharAux (sep : Char) : List Char → List Char → List (List Char)
  | [], acc => [acc.reverse]
  | c :: cs, acc =>
    if c = sep then acc.reverse :: splitCharAux sep cs []
    else splitCharAux sep cs (c :: acc)

/-- Python text.split(sep) for a one-character separator. -/
def pySplitChar (sep : Char) (s : String) : List String :=
  (splitCharAux sep s.data []).map (fun l => ⟨l⟩)

/-- Python sep.join(parts). -/
def pyJoin (sep : String) : List String → String
  | [] => ""
  | [x] => x
  | x :: y :: xs => x ++ sep ++ pyJoin sep (y :: xs)

/-- Splitting a character list on the two-character separator newline-newline,
scanning left to right over non-overlapping occurrences: Python
text.split of a two-newline separator. -/
def splitNNAux : List Char → List Char → List (List Char)
  | [], acc => [acc.reverse]
  | [c], acc => [(c :: acc).reverse]
  | c₁ :: c₂ :: rest, acc =>
    if c₁ = '\n' ∧ c₂ = '\n' then acc.reverse :: splitNNAux rest []
    else splitNNAux (c₂ :: rest) (c₁ :: acc)

/-- Python text.split on a blank-line separator (two newlines). -/
def pySplitNN (s : String) : List String :=
  (splitNNAux s.data []).map (fun l => ⟨l⟩)

/-- Replicated newlines emitted for one run of newlines: a run of three or
more newlines is replaced by exactly two (re.sub of three-or-more newlines
with two). -/
def emitNl (n : Nat) : List Char :=
  List.replicate (if 3 ≤ n then 2 else n) '\n'

/-- One-pass collapsing of newline runs, carrying the length of the pending
newline run. -/
def collapseNlAux : Nat → List Char → List Char
  | pending, [] => emitNl pending
  | pending, c :: rest =>
    if c = '\n' then collapseNlAux (pending + 1) rest
    else emitNl pending ++ c :: collapseNlAux 0 rest

/-- The re.sub call collapsing runs of three or more newlines down to two. -/
def collapseNewlines (s : String) : String := ⟨collapseNlAux 0 s.data⟩

/-- Python str.split() with no argument: split on whitespace runs, dropping
empty fields. -/
def wordsAux : List Char → List Char → List (List Char)
  | [], acc => if acc.isEmpty then [] else [acc.reverse]
  | c :: cs, acc =>
    if c.isWhitespace then
      if acc.isEmpty then wordsAux cs [] else acc.reverse :: wordsAux cs []
    else wordsAux cs (c :: acc)

/-- Python text.split() (whitespace words). -/
def pyWords (s : String) : List String :=
  (wordsAux s.data []).map (fun l => ⟨l⟩)

/-- Search helper for unanchored patterns: re.search succeeds iff the
pattern matches starting at some position of the line. -/
def anyTail (f : List Char → Bool) : List Char → Bool
  | [] => f []
  | c :: cs => f (c :: cs) || anyTail f cs

/-- Skip pattern 1 of the cleaner: an entire line that is an optionally
whitespace-padded brace-delimited blob (a JSON-object-looking line). -/
def matchBracePat (l : List Char) : Bool :=
  let t := stripChars l
  t.head? == some '\x7b' && t.getLast? == some '\x7d'

/-- Skip pattern 2: an entire line that is a bracket-delimited blob. -/
def matchBracketPat (l : List Char) : Bool :=
  let t := stripChars l
  t.head? == some '[' && t.getLast? == some ']'

/-- Matcher for a quoted JSON key followed by optional whitespace and a
colon, anchored at the head of the list. -/
def jsonKeyAt : List Char → Bool
  | '"' :: rest =>
    let isIdentChar := fun (c : Char) => c.isAlpha || c == '_'
    !(rest.takeWhile isIdentChar).isEmpty &&
      (rest.dropWhile isIdentChar).head? == some '"' &&
      (((rest.dropWhile isIdentChar).drop 1).dropWhile Char.isWhitespace).head? == some ':'
  | _ => false

/-- Skip pattern 3: the line contains a quoted identifier followed by a
colon somewhere in it. -/
def matchJsonKey (l : List Char) : Bool := anyTail jsonKeyAt l

/-- Matcher for a CSS var reference opening (the letters var, optional
whitespace, an opening parenthesis, optional whitespace, two dashes),
anchored at the head of the list. -/
def cssVarAt : List Char → Bool
  | 'v' :: 'a' :: 'r' :: rest =>
    let r1 := rest.dropWhile Char.isWhitespace
    r1.head? == some '(' &&
      ((r1.drop 1).dropWhile Char.isWhitespace).take 2 == ['-', '-']
  | _ => false

/-- Skip pattern 4: the line contains a CSS var reference. -/
def matchCssVar (l : List Char) : Bool := anyTail cssVarAt l

/-- Matcher for a CSS custom property declaration (two dashes, one or more
lowercase letters or dashes, then a colon), anchored at the head. -/
def cssPropAt : List Char → Bool
  | '-' :: '-' :: rest =>
    let isPropChar := fun (c : Char) => ('a' ≤ c && c ≤ 'z') || c == '-'
    !(rest.takeWhile isPropChar).isEmpty &&
      (rest.dropWhile isPropChar).head? == some ':'
  | _ => false

/-- Skip pattern 5: the line contains a CSS custom property declaration. -/
def matchCssProp (l : List Char) : Bool := anyTail cssPropAt l

/-- Hexadecimal digit (both cases). -/
def isHexChar (c : Char) : Bool :=
  c.isDigit || ('a' ≤ c && c ≤ 'f') || ('A' ≤ c && c ≤ 'F')

/-- Skip pattern 6: a whitespace-padded hex color literal, a hash sign
followed by three to eight hex digits. -/
def matchHexColor (l : List Char) : Bool :=
  match stripChars l with
  | '#' :: hs => hs.all isHexChar && 3 ≤ hs.length && hs.length ≤ 8
  | _ => false

/-- Skip pattern 7: a lone dash optionally followed by whitespace. -/
def matchLoneDash : List Char → Bool
  | '-' :: rest => rest.all Char.isWhitespace
  | _ => false

/-- The navigation words of skip pattern 8, pre-lowercased for the
case-insensitive comparison. -/
def navItemWords : List String :=
  ["about", "home", "contact", "careers", "jobs", "menu", "search", "login", "sign"]

/-- Skip pattern 8 (case-insensitive): optional whitespace, a dash, optional
whitespace, one of the navigation words, optional trailing whitespace. -/
def matchNavItem (l : List Char) : Bool :=
  let low := l.map Char.toLower
  match low.dropWhile Char.isWhitespace with
  | '-' :: rest =>
    let r := rest.dropWhile Char.isWhitespace
    navItemWords.any (fun w =>
      w.data.isPrefixOf r && (r.drop w.data.length).all Char.isWhitespace)
  | _ => false

/-- The language names of skip pattern 9, pre-lowercased (ASCII folding)
for the case-insensitive comparison. -/
def languageWords : List String :=
  ["english", "español", "français", "deutsch", "中文", "日本語", "english-uk"]

/-- Skip pattern 9 (case-insensitive): a line that is exactly one of the
language names plus optional trailing whitespace. -/
def matchLanguageLine (l : List Char) : Bool :=
  let low := l.map Char.toLower
  languageWords.any (fun w =>
    w.data.isPrefixOf low && (low.drop w.data.length).all Char.isWhitespace)

/-- Skip pattern 10 (case-insensitive): a line starting with the word
english followed by at least one whitespace character. -/
def matchRepeatedEnglish (l : List Char) : Bool :=
  let low := l.map Char.toLower
  "english".data.isPrefixOf low &&
    (match (low.drop 7).head? with
     | some c => c.isWhitespace
     | none => false)

/-- Skip pattern 11 (case-insensitive): theme configuration noise words
occurring anywhere in the line. -/
def matchThemeNoise (l : List Char) : Bool :=
  let low : String := ⟨l.map Char.toLower⟩
  ["themeoptions", "customtheme", "vartheme"].any (fun w => containsSub low w)

/-- Skip pattern 12 (case-insensitive): vendor styling noise substrings
occurring anywhere in the line. -/
def matchVendorNoise (l : List Char) : Bool :=
  let low : String := ⟨l.map Char.toLower⟩
  ["pcsx-", "primary-color", "accent-color", "button-"].any (fun w => containsSub low w)

/-- The skip-pattern check of the cleaner: any of the thirteen patterns
matches the line (pattern 13 is the all-whitespace line). -/
def skipLine (line : String) : Bool :=
  matchBracePat line.data || matchBracketPat line.data || matchJsonKey line.data ||
  matchCssVar line.data || matchCssProp line.data || matchHexColor line.data ||
  matchLoneDash line.data || matchNavItem line.data || matchLanguageLine line.data ||
  matchRepeatedEnglish line.data || matchThemeNoise line.data ||
  matchVendorNoise line.data || line.data.all Char.isWhitespace

/-- Count of alphabetic-or-whitespace characters of a line (ASCII reading
of Python isalpha and isspace). -/
def alphaSpaceCount (line : String) : Nat :=
  (line.data.filter (fun c => c.isAlpha || c.isWhitespace)).length

/-- The low-alphabetic-ratio filter: the ratio of alphabetic-or-whitespace
characters is below one half and the line is longer than 20 characters.
The division-free comparison doubles the count instead of dividing. -/
def lowAlphaSkip (line : String) : Bool :=
  (2 * alphaSpaceCount line < max line.length 1) && (20 < line.length)

/-- Count held for a key in the seen-short-lines dictionary, zero when the
key is absent. -/
def seenCount : List (String × Nat) → String → Nat
  | [], _ => 0
  | (k, v) :: rest, key => if k = key then v else seenCount rest key

/-- Store a new count for a key in the seen-short-lines dictionary. -/
def bumpSeen : List (String × Nat) → String → Nat → List (String × Nat)
  | [], key, n => [(key, n)]
  | (k, v) :: rest, key, n =>
    if k = key then (key, n) :: rest else (k, v) :: bumpSeen rest key n

/-- The line loop of the cleaner: strip each line, drop empties, drop
skip-pattern matches, count short lines and drop them past the second
occurrence, drop low-alphabetic-ratio lines, keep the rest in order. -/
def cleanLinesAux : List String → List (String × Nat) → List String
  | [], _ => []
  | l :: ls, seen =>
    let line := pyStrip l
    if line = "" then cleanLinesAux ls seen
    else if skipLine line then cleanLinesAux ls seen
    else if line.length < 50 then
      let cnt := seenCount seen line + 1
      let seen' := bumpSeen seen line cnt
      if 2 < cnt then cleanLinesAux ls seen'
      else if lowAlphaSkip line then cleanLinesAux ls seen'
      else line :: cleanLinesAux ls seen'
    else if lowAlphaSkip line then cleanLinesAux ls seen
    else line :: cleanLinesAux ls seen

/-- Paragraph normal form: whitespace-collapsed, case-folded. -/
def normPara (p : String) : String := pyLower (pyJoin " " (pyWords p))

/-- Paragraph-level deduplication: a paragraph whose normal form is longer
than 20 characters is kept only the first time its normal form is seen;
short paragraphs always pass through. -/
def dedupParasAux : List String → List String → List String
  | [], _ => []
  | p :: ps, seen =>
    let n := normPara p
    if 20 < n.length then
      if n ∈ seen then dedupParasAux ps seen
      else p :: dedupParasAux ps (n :: seen)
    else p :: dedupParasAux ps seen

/-- The cleaner of extracted text: line-level cleanup, newline-run
collapsing, paragraph deduplication, final strip. Mirrors the private
cleanup function of the v2 service. -/
def cleanExtractedText (text : String) : String :=
  if text = "" then ""
  else
    let lines := pySplitChar '\n' text
    let cleanedLines := cleanLinesAux lines []
    let result := collapseNewlines (pyJoin "\n" cleanedLines)
    let paragraphs := pySplitNN result
    let uniqueParagraphs := dedupParasAux paragraphs []
    pyStrip (pyJoin "\n\n" uniqueParagraphs)

end WebRun

namespace V2

open WebRun

/-- URL patterns aborted by the route interception rule of the v2 service. -/
def BLOCKED_URL_PATTERNS : List String :=
  ["google-analytics.com", "googletagmanager.com", "facebook.net",
   "doubleclick.net", "googlesyndication.com", "adservice.google",
   "hotjar.com", "mixpanel.com", "segment.io", "amplitude.com",
   "sentry.io", "newrelic.com", "nr-data.net"]

/-- Decision taken by the per-request interception rule. -/
inductive RouteAction
  | abort
  | cont
deriving DecidableEq

/-- The route handler: lowercase the request URL, abort when any deny-list
pattern occurs in it, otherwise let the request continue. -/
def handleRoute (requestUrl : String) : RouteAction :=
  let url := pyLower requestUrl
  if BLOCKED_URL_PATTERNS.any (fun pattern => containsSub url pattern) then .abort
  else .cont

/-- Output format requested from the v2 pipeline. -/
inductive OutFmt
  | text
  | html
deriving DecidableEq

/-- Python exceptions distinguished by the handler chain of the v2
pipeline: an HTTPException (re-raised as is), an asyncio timeout (mapped
to 408), and any other exception with its type name and message (mapped
to 500). -/
inductive PyExn
  | httpException (statusCode : Nat) (detail : String)
  | asyncTimeout
  | exn (typeName : String) (message : String)
deriving DecidableEq

/-- Message text of an exception as observed by str(e): the message for a
plain exception, empty for a bare asyncio timeout, code and detail for
an HTTPException. -/
def PyExn.text : PyExn → String
  | .httpException code detail => toString code ++ ": " ++ detail
  | .asyncTimeout => ""
  | .exn _ m => m

/-- Observable browser-engine calls made by the v2 pipeline, in order. -/
inductive Ev
  | ctxCreated
  | pageCreated
  | routeInstalled
  | navigate
  | navSleep
  | renderWaited
  | check404Ran
  | scrolled
  | domCleaned
  | jobExtract
  | domSerialized
  | primaryExtract
  | fallbackStage
  | fbEvaluated
  | closePageCalled
  | closeCtxCalled
deriving DecidableEq

/-- Outcome of one goto call: either a response (none models a null
response object) or a raised exception. -/
inductive StratOutcome
  | ok (response : Option Nat)
  | raise (e : PyExn)

/-- Environment fixing the outcome of every external call one run of the
v2 pipeline can make. Fields are consumed in pipeline order. -/
structure Env where
  newContextResult : Option PyExn
  newPageResult : Option PyExn
  routeResult : Option PyExn
  nav : List StratOutcome
  bodyEval : Except Unit String
  jobTexts : List (Option String)
  htmlContent : String
  trafilaturaResult : Option String
  fbEvalText : String
  fbEvalHtml : String

/-- Computation of the v2 pipeline: an exception-or-value paired with the
trace of browser-engine calls it performed. -/
def M (α : Type) : Type := Except PyExn α × List Ev

instance instM : Monad M where
  pure a := (.ok a, [])
  bind x f :=
    match x with
    | (.ok a, t) => ((f a).1, t ++ (f a).2)
    | (.error e, t) => (.error e, t)

/-- Record one browser-engine call. -/
def tellEv (e : Ev) : M Unit := (.ok (), [e])

/-- Raise an exception. -/
def throwE {α : Type} (e : PyExn) : M α := (.error e, [])

/-- Perform an external call that the environment says succeeds or raises. -/
def raiseOpt : Option PyExn → M Unit
  | none => (.ok (), [])
  | some e => (.error e, [])

/-- Session preparation: create a context, create a page in it, install
the route interception rule. Each step can raise; a later failure leaves
the earlier acquisitions behind. -/
def createStealthPage (env : Env) : M Unit := do
  raiseOpt env.newContextResult
  tellEv .ctxCreated
  raiseOpt env.newPageResult
  tellEv .pageCreated
  raiseOpt env.routeResult
  tellEv .routeInstalled

/-- Hard network fault test: the lowercased message mentions an unresolved
name or a refused connection. -/
def hardNetworkError (msg : String) : Bool :=
  ["net::err_name_not_resolved", "net::err_connection_refused"].any
    (fun x => containsSub (pyLower msg) x)

/-- The strategy loop of the v2 navigation: try each strategy in order;
a response commits; a raised hard network error propagates at once; any
other exception is remembered, a one-second pause is taken before a
non-final strategy, and the last error is raised after the list is
exhausted. -/
def navigateAux : List StratOutcome → Option PyExn → M (Option Nat)
  | [], lastError =>
    match lastError with
    | some e => throwE e
    | none => pure none
  | o :: rest, _ => do
    tellEv .navigate
    match o with
    | .ok r => pure r
    | .raise e =>
      if hardNetworkError e.text then throwE e
      else do
        if rest.isEmpty then pure () else tellEv .navSleep
        navigateAux rest (some e)

/-- Navigation with the strategy list of the deployed service. -/
def navigateWithRetry (outcomes : List StratOutcome) : M (Option Nat) :=
  navigateAux outcomes none

/-- Result of navigation without its trace, used to state hypotheses. -/
def navResult (outcomes : List StratOutcome) : Except PyExn (Option Nat) :=
  (navigateWithRetry outcomes).1

/-- Not-found phrases looked for by the in-page classifier script. -/
def notFoundMarkers : List String :=
  ["page not found", "404", "not found", "does not exist"]

/-- Positive signal terms looked for by the in-page classifier script. -/
def jobTerms : List String :=
  ["apply", "description", "responsibilities", "qualifications",
   "requirements", "experience"]

/-- The classifier script evaluated in the page: on short lowercased body
text look for not-found phrasing, on long body text report a real 404
exactly when no positive signal term occurs. -/
def check404Script (bodyText : String) : Bool :=
  if (pyLower bodyText).length < 300 then
    notFoundMarkers.any (fun s => containsSub (pyLower bodyText) s)
  else !(jobTerms.any (fun t => containsSub (pyLower bodyText) t))

/-- Value returned by the real-404 check: the script result when the
in-page evaluation returns, true when the evaluation raises. -/
def check404Value (env : Env) : Bool :=
  match env.bodyEval with
  | .ok bodyText => check404Script bodyText
  | .error _ => true

/-- The real-404 check as a pipeline step. -/
def checkReal404 (env : Env) : M Bool := do
  tellEv .check404Ran
  pure (check404Value env)

/-- Selector scan of the job-content extractor: the first selector whose
element text is non-empty and longer than 100 characters once stripped
yields that stripped text. -/
def jobScan : List (Option String) → Option String
  | [] => none
  | none :: rest => jobScan rest
  | some t :: rest =>
    if t ≠ "" ∧ 100 < (pyStrip t).length then some (pyStrip t)
    else jobScan rest

/-- Job-content extraction as a pipeline step. -/
def extractJobContent (env : Env) : M (Option String) := do
  tellEv .jobExtract
  pure (jobScan env.jobTexts)

/-- Value produced by the primary extraction stage: the engine result,
passed through the text cleaner when non-empty and in text mode. -/
def extractedValue (env : Env) (fmt : OutFmt) : Option String :=
  match env.trafilaturaResult with
  | none => none
  | some r => if r ≠ "" ∧ fmt = .text then some (cleanExtractedText r) else some r

/-- The fallback trigger of the pipeline: the primary result is missing,
empty, or shorter than 50 characters once stripped. -/
def needsFallback (env : Env) (fmt : OutFmt) : Bool :=
  match extractedValue env fmt with
  | none => true
  | some e => e == "" || (pyStrip e).length < 50

/-- Generic part of the fallback extractor: one page evaluation returning
markup or text, the text cleaned. -/
def fbGeneric (env : Env) (fmt : OutFmt) : M String := do
  tellEv .fbEvaluated
  if fmt = .html then pure env.fbEvalHtml
  else pure (cleanExtractedText env.fbEvalText)

/-- The fallback content stage: retry the job-content extractor first and
use its text (cleaned in text mode) when longer than 100 characters,
otherwise evaluate the generic selector walk in the page. -/
def getFallbackContent (env : Env) (fmt : OutFmt) : M String := do
  tellEv .fallbackStage
  let jobContent ← extractJobContent env
  match jobContent with
  | some j =>
    if j ≠ "" ∧ 100 < j.length then
      if fmt = .text then pure (cleanExtractedText j) else pure j
    else fbGeneric env fmt
  | none => fbGeneric env fmt

/-- Early job-selector extraction of the entry point, run only in text
mode: content longer than 200 characters whose cleaned form is longer than
150 characters is returned directly. -/
def earlyJobStage (env : Env) (fmt : OutFmt) : M (Option String) :=
  if fmt = .text then do
    let jobContent ← extractJobContent env
    match jobContent with
    | some j =>
      if j ≠ "" ∧ 200 < j.length then
        let cleaned := cleanExtractedText j
        if 150 < cleaned.length then pure (some cleaned) else pure none
      else pure none
    | none => pure none
  else pure none

/-- Content accepted by the early job-selector extraction, none when the
pipeline falls through to serialization. -/
def earlyResultOf (env : Env) (fmt : OutFmt) : Option String :=
  match (earlyJobStage env fmt).1 with
  | .ok v => v
  | .error _ => none

/-- Tail of the extraction pipeline: serialize the DOM, reject
short documents, run the primary extraction, fall back when its result is
missing or too short, and apply the final emptiness checks. -/
def finalizeStage (env : Env) (fmt : OutFmt) : M String := do
  tellEv .domSerialized
  if env.htmlContent = "" ∨ (pyStrip env.htmlContent).length < 100 then
    throwE (.httpException 204 "Page returned empty content")
  else do
    tellEv .primaryExtract
    let extracted := extractedValue env fmt
    let extracted ← (
      if needsFallback env fmt then do
        let fb ← getFallbackContent env fmt
        pure (some fb)
      else pure extracted)
    match extracted with
    | none => throwE (.httpException 204 "Could not extract content")
    | some e =>
      if e = "" ∨ pyStrip e = "" then
        throwE (.httpException 204 "Could not extract content")
      else pure (pyStrip e)

/-- Everything after outcome classification: scroll, DOM cleaning, the
early job-selector extraction in text mode, then the serialization and
extraction tail. -/
def extractionPhase (env : Env) (fmt : OutFmt) : M String := do
  tellEv .scrolled
  tellEv .domCleaned
  let earlyResult ← earlyJobStage env fmt
  match earlyResult with
  | some content => pure content
  | none => finalizeStage env fmt

/-- Status taken from the navigation response, defaulting to 200 for a
null response object. -/
def statusOf : Option Nat → Nat
  | some s => s
  | none => 200

/-- The try block of the v2 entry point: prepare the session, navigate,
wait for render, classify error statuses, then extract. -/
def tryBody (env : Env) (fmt : OutFmt) : M String := do
  createStealthPage env
  let response ← navigateWithRetry env.nav
  let statusCode := statusOf response
  tellEv .renderWaited
  if 400 ≤ statusCode then do
    let isReal404 ← checkReal404 env
    if isReal404 then
      throwE (.httpException (if statusCode = 404 then 404 else 502)
        ("Target URL returned HTTP " ++ toString statusCode))
    else pure ()
  else pure ()
  extractionPhase env fmt

/-- The page variable of the entry point is assigned exactly when session
preparation ran to completion. -/
def pageAcquired (env : Env) : Bool :=
  env.newContextResult.isNone && env.newPageResult.isNone && env.routeResult.isNone

/-- The except chain of the entry point: HTTPExceptions pass through, an
asyncio timeout becomes 408, anything else becomes 500 naming the
exception type. -/
def classifyExn : PyExn → PyExn
  | .httpException code detail => .httpException code detail
  | .asyncTimeout => .httpException 408 "Request timed out"
  | .exn typeName _ => .httpException 500 ("Failed to fetch: " ++ typeName)

/-- The finally block: when the page variable was assigned, close the page,
then close its context; an error while closing the page is suppressed but
skips the context close; an error while closing the context is suppressed
with no further effect. -/
def cleanupEvents (env : Env) (closePageOk : Bool) : List Ev :=
  if pageAcquired env then
    .closePageCalled :: (if closePageOk then [.closeCtxCalled] else [])
  else []

/-- The v2 entry point: try body, except chain, finally block. The
closePageOk argument is the part of the world deciding whether the page
close call raises. -/
def get_page_content (env : Env) (closePageOk : Bool) (fmt : OutFmt) :
    Except PyExn String × List Ev :=
  let body := tryBody env fmt
  ((match body.1 with
    | .ok content => .ok content
    | .error e => .error (classifyExn e)),
   body.2 ++ cleanupEvents env closePageOk)

/-- Traces free of close calls. -/
def noCloseEvents (t : List Ev) : Bool :=
  t.all (fun e => e != Ev.closePageCalled && e != Ev.closeCtxCalled)

/-- Traces on which no extraction stage ran: no job-selector extraction,
no DOM serialization, no primary engine call, no fallback stage, no
fallback page evaluation. -/
def noExtractionEvents (t : List Ev) : Bool :=
  t.all (fun e => e != Ev.jobExtract && e != Ev.domSerialized &&
    e != Ev.primaryExtract && e != Ev.fallbackStage && e != Ev.fbEvaluated)

/-- Environment of a run that fails while preparing its session: the
context is created but the page creation call raises. -/
def envLeak : Env :=
  { newContextResult := none
    newPageResult := some (.exn "Error" "new page failed")
    routeResult := none
    nav := []
    bodyEval := .ok ""
    jobTexts := []
    htmlContent := ""
    trafilaturaResult := none
    fbEvalText := ""
    fbEvalHtml := "" }

/-- Environment of a plain successful run used to instantiate theorems. -/
def envHappy : Env :=
  { newContextResult := none
    newPageResult := none
    routeResult := none
    nav := [StratOutcome.ok (some 200)]
    bodyEval := .ok ""
    jobTexts := []
    htmlContent := ""
    trafilaturaResult := none
    fbEvalText := ""
    fbEvalHtml := "" }

/-- Environment of a navigation committed with status 404 whose short body
shows not-found phrasing. -/
def env404 : Env :=
  { envHappy with
      nav := [StratOutcome.ok (some 404)]
      bodyEval := .ok "Page not found" }

/-- Body text of a soft-404 page: long and full of positive signal terms. -/
def softBody : String := String.join (List.replicate 40 "apply today ")

/-- Environment of a navigation committed with status 404 whose long body
shows positive signal terms. -/
def envSoft : Env :=
  { envHappy with
      nav := [StratOutcome.ok (some 404)]
      bodyEval := .ok softBody }

/-- Environment of a run whose primary extraction yields nothing and whose
fallback evaluation returns usable text. -/
def envFb : Env :=
  { envHappy with
      htmlContent := String.join (List.replicate 20 "hello")
      trafilaturaResult := none
      fbEvalText := "fallback content line" }

/-- Environment of an error-status navigation whose in-page classifier
evaluation raises. -/
def envEvalBoom : Env :=
  { envHappy with
      nav := [StratOutcome.ok (some 500)]
      bodyEval := .error () }

end V2

namespace V1

open WebRun

/-- Outcome of one navigation strategy of the v1 controller: the page
content after a successful load, a Playwright timeout together with the
result of the partial-content rescue attempt (which itself may raise), or
any other error propagating out of the strategy body. -/
inductive StratOutcome
  | ok (html : String)
  | timeout (msg : String) (rescue : Except Unit String)
  | err (msg : String)

/-- Errors raised by the v1 service, by exception class. -/
inductive Err
  | timeoutError (msg : String)
  | playwrightError (msg : String)
  | scrapingError (msg : String)
deriving DecidableEq

/-- Observable calls made by the v1 retry loop, in order. -/
inductive Ev
  | newContext
  | navigate
  | contentRescue
  | closePage
  | closeContext
  | backoff (seconds : Nat)
deriving DecidableEq

/-- The strategy loop of the v1 navigation fallback: a strategy that loads
returns the serialized content; a Playwright timeout first asks the page
for whatever content materialized and accepts it when non-empty and
containing an opening body tag, otherwise remembers the timeout and moves
to the next strategy; any other error propagates at once; after the list
is exhausted the last timeout is re-raised (or a catch-all timeout naming
the URL when no strategy ran). -/
def navFallbackAux (url : String) :
    List StratOutcome → Option String → Except Err String × List Ev
  | [], lastError =>
    (match lastError with
     | some m => .error (.timeoutError m)
     | none => .error (.timeoutError ("All navigation strategies failed for " ++ url)),
     [])
  | o :: rest, _ =>
    match o with
    | .ok html => (.ok html, [.navigate])
    | .err m => (.error (.playwrightError m), [.navigate])
    | .timeout m rescue =>
      match rescue with
      | .ok html =>
        if html ≠ "" ∧ containsSub (pyLower html) "<body" then
          (.ok html, [.navigate, .contentRescue])
        else
          let next := navFallbackAux url rest (some m)
          (next.1, .navigate :: .contentRescue :: next.2)
      | .error _ =>
        let next := navFallbackAux url rest (some m)
        (next.1, .navigate :: .contentRescue :: next.2)

/-- Navigation with the fallback strategies, starting with no remembered
error. -/
def navigateWithFallback (url : String) (outcomes : List StratOutcome) :
    Except Err String × List Ev :=
  navFallbackAux url outcomes none

/-- Terminal message of the v1 retry loop. -/
def finalMsg (url : String) (maxRetries : Nat) : String :=
  "Failed to scrape " ++ url ++ " after " ++ toString (maxRetries + 1) ++ " attempts"

/-- The retry loop of the v1 service from a given attempt index with a
given number of attempts left: each attempt opens a fresh context and page
(closed unconditionally by the cleanup helper), runs the navigation
fallback, succeeds when content longer than 500 characters once stripped
came back, and otherwise swallows the failure, backs off two to the power
of the attempt index seconds when further retries remain, and moves on.
Exhausting all attempts raises the terminal scraping error. -/
def runAux (envs : Nat → List StratOutcome) (url : String) (maxRetries : Nat) :
    Nat → Nat → Except Err String × List Ev
  | _, 0 => (.error (.scrapingError (finalMsg url maxRetries)), [])
  | attempt, remaining + 1 =>
    let nav := navFallbackAux url (envs attempt) none
    let attemptEvs := Ev.newContext :: nav.2 ++ [Ev.closePage, Ev.closeContext]
    match nav.1 with
    | .ok html =>
      if html ≠ "" ∧ 500 < (pyStrip html).length then (.ok html, attemptEvs)
      else
        let backoffEvs := if attempt < maxRetries then [Ev.backoff (2 ^ attempt)] else []
        let next := runAux envs url maxRetries (attempt + 1) remaining
        (next.1, attemptEvs ++ backoffEvs ++ next.2)
    | .error _ =>
      let backoffEvs := if attempt < maxRetries then [Ev.backoff (2 ^ attempt)] else []
      let next := runAux envs url maxRetries (attempt + 1) remaining
      (next.1, attemptEvs ++ backoffEvs ++ next.2)

/-- The v1 service entry: at most maxRetries plus one attempts. -/
def run (envs : Nat → List StratOutcome) (url : String) (maxRetries : Nat) :
    Except Err String × List Ev :=
  runAux envs url maxRetries 0 (maxRetries + 1)

/-- Backoff events of a trace. -/
def isBackoff : Ev → Bool
  | Ev.backoff _ => true
  | _ => false

/-- Behavior of a target whose every navigation raises a DNS hard network
error. -/
def dnsFailureOutcomes : Nat → List StratOutcome :=
  fun _ => [StratOutcome.err "net::ERR_NAME_NOT_RESOLVED at https://bad.example/"]

end V1

namespace WebRun

/-- Substring occurrence agrees with the contiguous-sublist relation. -/
theorem subOccurs_iff (needle l : List Char) :
    subOccurs needle l = true ↔ needle <:+: l := by
  induction l with
  | nil =>
    simp only [subOccurs, List.isEmpty_iff]
    constructor
    · rintro rfl; exact List.infix_rfl
    · intro h; exact List.eq_nil_of_infix_nil h
  | cons c cs ih =>
    simp only [subOccurs, Bool.or_eq_true, List.isPrefixOf_iff_prefix, ih,
      List.infix_cons_iff]

/-- Substring containment on strings agrees with the contiguous-sublist
relation on their character lists. -/
theorem containsSub_iff (hay needle : String) :
    containsSub hay needle = true ↔ needle.data <:+: hay.data :=
  subOccurs_iff needle.data hay.data

end WebRun

namespace V2

open WebRun

theorem bind_mk_ok {α β : Type} (a : α) (t : List Ev) (f : α → M β) :
    @Bind.bind M _ α β (Except.ok a, t) f = ((f a).1, t ++ (f a).2) := rfl

theorem bind_mk_error {α β : Type} (e : PyExn) (t : List Ev) (f : α → M β) :
    @Bind.bind M _ α β (Except.error e, t) f = (Except.error e, t) := rfl

theorem pure_eq {α : Type} (a : α) : (pure a : M α) = (Except.ok a, []) := rfl

theorem extractJobContent_eq (env : Env) :
    extractJobContent env = (Except.ok (jobScan env.jobTexts), [Ev.jobExtract]) := rfl

theorem checkReal404_eq (env : Env) :
    checkReal404 env = (Except.ok (check404Value env), [Ev.check404Ran]) := rfl

theorem createStealthPage_acquired (env : Env) (h : pageAcquired env = true) :
    createStealthPage env =
      (Except.ok (), [Ev.ctxCreated, Ev.pageCreated, Ev.routeInstalled]) := by
  unfold pageAcquired at h
  rw [Bool.and_eq_true, Bool.and_eq_true] at h
  obtain ⟨⟨h1, h2⟩, h3⟩ := h
  rw [Option.isNone_iff_eq_none] at h1 h2 h3
  unfold createStealthPage
  rw [h1, h2, h3]
  rfl

/-- Events a navigation loop can record. -/
theorem navigateAux_events (outs : List StratOutcome) :
    ∀ lastE, ∀ e ∈ (navigateAux outs lastE).2, e = Ev.navigate ∨ e = Ev.navSleep := by
  induction outs with
  | nil =>
    intro lastE e he
    cases lastE <;> simp [navigateAux, throwE, pure_eq] at he
  | cons o rest ih =>
    intro lastE e he
    cases o with
    | ok r =>
      simp [navigateAux, tellEv, bind_mk_ok, pure_eq] at he
      exact Or.inl he
    | raise ex =>
      by_cases hh : hardNetworkError ex.text = true
      · simp [navigateAux, tellEv, bind_mk_ok, throwE, hh] at he
        exact Or.inl he
      · by_cases hr : rest.isEmpty = true
        · simp [navigateAux, tellEv, bind_mk_ok, throwE, pure_eq, hh, hr] at he
          rcases he with he | he
          · exact Or.inl he
          · exact ih (some ex) e he
        · simp [navigateAux, tellEv, bind_mk_ok, throwE, pure_eq, hh, hr] at he
          rcases he with he | he | he
          · exact Or.inl he
          · exact Or.inr he
          · exact ih (some ex) e he

/-- The early job stage never raises, records exactly one extraction call
in text mode and nothing in markup mode, and its value is its recorded
result. -/
theorem earlyJobStage_spec (env : Env) (fmt : OutFmt) :
    earlyJobStage env fmt =
      (Except.ok (earlyResultOf env fmt),
       if fmt = OutFmt.text then [Ev.jobExtract] else []) := by
  have main : ∃ r, earlyJobStage env fmt =
      (Except.ok r, if fmt = OutFmt.text then [Ev.jobExtract] else []) := by
    cases fmt with
    | text =>
      simp only [earlyJobStage, extractJobContent_eq, bind_mk_ok, reduceIte]
      cases h : jobScan env.jobTexts with
      | none => exact ⟨none, by simp [pure_eq]⟩
      | some j =>
        dsimp only
        by_cases h1 : j ≠ "" ∧ 200 < j.length
        · by_cases h2 : 150 < (cleanExtractedText j).length
          · exact ⟨some (cleanExtractedText j), by simp [h1, h2, pure_eq]⟩
          · exact ⟨none, by simp [h1, h2, pure_eq]⟩
        · exact ⟨none, by simp [h1, pure_eq]⟩
    | html => exact ⟨none, by simp [earlyJobStage, pure_eq]⟩
  obtain ⟨r, hr⟩ := main
  rw [hr]
  unfold earlyResultOf
  rw [hr]

/-- The fallback stage never raises: it returns some string, its trace
starts with the fallback-stage marker, and the rest of its trace is made
of extraction calls. -/
theorem getFallbackContent_spec (env : Env) (fmt : OutFmt) :
    ∃ v t, getFallbackContent env fmt = (Except.ok v, Ev.fallbackStage :: t) ∧
      ∀ e ∈ t, e = Ev.jobExtract ∨ e = Ev.fbEvaluated := by
  have hgen : ∃ g, fbGeneric env fmt = (Except.ok g, [Ev.fbEvaluated]) := by
    cases fmt
    · exact ⟨cleanExtractedText env.fbEvalText, rfl⟩
    · exact ⟨env.fbEvalHtml, rfl⟩
  obtain ⟨g, hg⟩ := hgen
  unfold getFallbackContent
  simp only [tellEv, bind_mk_ok, extractJobContent_eq]
  cases h : jobScan env.jobTexts with
  | none =>
    dsimp only
    rw [hg]
    exact ⟨g, [Ev.jobExtract, Ev.fbEvaluated], rfl,
      by intro e he; simp at he; tauto⟩
  | some j =>
    dsimp only
    by_cases h1 : j ≠ "" ∧ 100 < j.length
    · rw [if_pos h1]
      cases fmt with
      | text =>
        exact ⟨cleanExtractedText j, [Ev.jobExtract], by simp [pure_eq], by simp⟩
      | html =>
        exact ⟨j, [Ev.jobExtract], by simp [pure_eq], by simp⟩
    · rw [if_neg h1]
      rw [hg]
      exact ⟨g, [Ev.jobExtract, Ev.fbEvaluated], rfl,
        by intro e he; simp at he; tauto⟩

theorem noClose_bind {α β : Type} (x : M α) (f : α → M β)
    (hx : noCloseEvents x.2 = true) (hf : ∀ a, noCloseEvents (f a).2 = true) :
    noCloseEvents (x >>= f).2 = true := by
  rcases x with ⟨r, t⟩
  cases r with
  | error e => rw [bind_mk_error]; exact hx
  | ok a =>
    rw [bind_mk_ok]
    dsimp only
    rw [noCloseEvents, List.all_append]
    rw [noCloseEvents] at hx
    have := hf a
    rw [noCloseEvents] at this
    rw [hx, this]
    rfl

theorem noClose_of_events {t : List Ev}
    (h : ∀ e ∈ t, e = Ev.closePageCalled → False)
    (h2 : ∀ e ∈ t, e = Ev.closeCtxCalled → False) :
    noCloseEvents t = true := by
  rw [noCloseEvents, List.all_eq_true]
  intro e he
  rw [Bool.and_eq_true, bne_iff_ne, bne_iff_ne]
  exact ⟨fun hc => h e he hc, fun hc => h2 e he hc⟩

theorem createStealthPage_noClose (env : Env) :
    noCloseEvents (createStealthPage env).2 = true := by
  obtain ⟨nc, np, rt, nav, be, jt, hc, tf, ft, fh⟩ := env
  cases nc <;> cases np <;> cases rt <;> rfl

theorem navigateAux_noClose (outs : List StratOutcome) (lastE : Option PyExn) :
    noCloseEvents (navigateAux outs lastE).2 = true := by
  apply noClose_of_events <;>
    (intro e he hc; rcases navigateAux_events outs lastE e he with rfl | rfl <;>
      simp at hc)

theorem earlyJobStage_noClose (env : Env) (fmt : OutFmt) :
    noCloseEvents (earlyJobStage env fmt).2 = true := by
  rw [earlyJobStage_spec]
  cases fmt <;> rfl

theorem getFallbackContent_noClose (env : Env) (fmt : OutFmt) :
    noCloseEvents (getFallbackContent env fmt).2 = true := by
  obtain ⟨v, t, hv, ht⟩ := getFallbackContent_spec env fmt
  rw [hv]
  apply noClose_of_events <;>
    (intro e he hc
     rcases List.mem_cons.mp he with rfl | he2
     · simp at hc
     · rcases ht e he2 with rfl | rfl <;> simp at hc)

theorem finalizeStage_noClose (env : Env) (fmt : OutFmt) :
    noCloseEvents (finalizeStage env fmt).2 = true := by
  unfold finalizeStage
  refine noClose_bind _ _ ?_ ?_
  · rfl
  intro a
  by_cases hh : env.htmlContent = "" ∨ (pyStrip env.htmlContent).length < 100
  · rw [if_pos hh]; rfl
  · rw [if_neg hh]
    refine noClose_bind _ _ ?_ ?_
    · rfl
    intro b
    refine noClose_bind _ _ ?_ ?_
    · by_cases hnf : needsFallback env fmt = true
      · simp only [hnf, if_true]
        refine noClose_bind _ _ (getFallbackContent_noClose env fmt) ?_
        intro c; rfl
      · simp only [Bool.not_eq_true] at hnf
        simp only [hnf, Bool.false_eq_true, if_false]
        rfl
    · intro c
      cases c with
      | none => rfl
      | some s =>
        dsimp only
        by_cases hs : s = "" ∨ pyStrip s = ""
        · rw [if_pos hs]; rfl
        · rw [if_neg hs]; rfl

theorem extractionPhase_noClose (env : Env) (fmt : OutFmt) :
    noCloseEvents (extractionPhase env fmt).2 = true := by
  unfold extractionPhase
  refine noClose_bind _ _ ?_ ?_
  · rfl
  intro a
  refine noClose_bind _ _ ?_ ?_
  · rfl
  intro b
  refine noClose_bind _ _ (earlyJobStage_noClose env fmt) ?_
  intro c
  cases c with
  | some s => rfl
  | none => exact finalizeStage_noClose env fmt

theorem noClose_counts {t : List Ev} (h : noCloseEvents t = true) :
    t.count Ev.closePageCalled = 0 ∧ t.count Ev.closeCtxCalled = 0 := by
  rw [noCloseEvents, List.all_eq_true] at h
  constructor <;>
    (rw [List.count_eq_zero]; intro hm; have h2 := h _ hm; simp at h2)

theorem tryBody_noClose (env : Env) (fmt : OutFmt) :
    noCloseEvents (tryBody env fmt).2 = true := by
  unfold tryBody
  refine noClose_bind _ _ (createStealthPage_noClose env) ?_
  intro a
  refine noClose_bind _ _ (navigateAux_noClose env.nav none) ?_
  intro r
  refine noClose_bind _ _ ?_ ?_
  · rfl
  intro b
  dsimp only
  by_cases hs : 400 ≤ statusOf r
  · rw [if_pos hs]
    refine noClose_bind _ _ ?_ ?_
    · rfl
    · intro is404
      cases is404 <;>
        exact noClose_bind _ _ rfl fun c => extractionPhase_noClose env fmt
  · rw [if_neg hs]
    refine noClose_bind _ _ ?_ ?_
    · rfl
    · intro c
      exact extractionPhase_noClose env fmt

/-- Claim C8: an intercepted request is aborted exactly when its
lowercased URL contains one of the deny-list patterns, and every other
request continues. -/
theorem route_abort_iff_deny_listed (requestUrl : String) :
    (handleRoute requestUrl = .abort ↔
      ∃ p ∈ BLOCKED_URL_PATTERNS, containsSub (pyLower requestUrl) p = true) ∧
    (handleRoute requestUrl = .cont ↔
      ¬ ∃ p ∈ BLOCKED_URL_PATTERNS, containsSub (pyLower requestUrl) p = true) := by
  unfold handleRoute
  by_cases h : (BLOCKED_URL_PATTERNS.any fun pattern => containsSub (pyLower requestUrl) pattern) = true
  · rw [if_pos h]
    rw [List.any_eq_true] at h
    exact ⟨⟨fun _ => h, fun _ => rfl⟩,
           ⟨fun hc => absurd hc (by decide), fun hn => absurd h hn⟩⟩
  · rw [if_neg h]
    rw [List.any_eq_true] at h
    exact ⟨⟨fun hc => absurd hc (by decide), fun hex => absurd hex h⟩,
           ⟨fun _ => h, fun _ => rfl⟩⟩

theorem tryBody_lt400 (env : Env) (fmt : OutFmt) (r : Option Nat) (navT : List Ev)
    (hacq : pageAcquired env = true)
    (hnav : navigateAux env.nav none = (Except.ok r, navT))
    (hs : statusOf r < 400) :
    tryBody env fmt =
      ((extractionPhase env fmt).1,
       Ev.ctxCreated :: Ev.pageCreated :: Ev.routeInstalled ::
         (navT ++ Ev.renderWaited :: (extractionPhase env fmt).2)) := by
  unfold tryBody navigateWithRetry
  rw [createStealthPage_acquired env hacq, bind_mk_ok]
  dsimp only
  rw [hnav, bind_mk_ok]
  dsimp only
  simp only [tellEv, bind_mk_ok]
  rw [if_neg (by omega : ¬ 400 ≤ statusOf r)]
  simp only [pure_eq, bind_mk_ok, List.append_assoc, List.nil_append,
    List.append_nil, List.cons_append, List.singleton_append]

theorem tryBody_hard404 (env : Env) (fmt : OutFmt) (r : Option Nat) (navT : List Ev)
    (hacq : pageAcquired env = true)
    (hnav : navigateAux env.nav none = (Except.ok r, navT))
    (hs : 400 ≤ statusOf r)
    (h4 : check404Value env = true) :
    tryBody env fmt =
      (Except.error (PyExn.httpException (if statusOf r = 404 then 404 else 502)
         ("Target URL returned HTTP " ++ toString (statusOf r))),
       Ev.ctxCreated :: Ev.pageCreated :: Ev.routeInstalled ::
         (navT ++ [Ev.renderWaited, Ev.check404Ran])) := by
  unfold tryBody navigateWithRetry
  rw [createStealthPage_acquired env hacq, bind_mk_ok]
  dsimp only
  rw [hnav, bind_mk_ok]
  dsimp only
  simp only [tellEv, bind_mk_ok]
  rw [if_pos hs]
  rw [checkReal404_eq, bind_mk_ok]
  dsimp only
  rw [h4]
  simp only [if_true, throwE, bind_mk_error, List.append_assoc, List.nil_append,
    List.append_nil, List.cons_append, List.singleton_append]

theorem tryBody_soft (env : Env) (fmt : OutFmt) (r : Option Nat) (navT : List Ev)
    (hacq : pageAcquired env = true)
    (hnav : navigateAux env.nav none = (Except.ok r, navT))
    (hs : 400 ≤ statusOf r)
    (h4 : check404Value env = false) :
    tryBody env fmt =
      ((extractionPhase env fmt).1,
       Ev.ctxCreated :: Ev.pageCreated :: Ev.routeInstalled ::
         (navT ++ Ev.renderWaited :: Ev.check404Ran :: (extractionPhase env fmt).2)) := by
  unfold tryBody navigateWithRetry
  rw [createStealthPage_acquired env hacq, bind_mk_ok]
  dsimp only
  rw [hnav, bind_mk_ok]
  dsimp only
  simp only [tellEv, bind_mk_ok]
  rw [if_pos hs]
  rw [checkReal404_eq, bind_mk_ok]
  dsimp only
  rw [h4]
  simp only [Bool.false_eq_true, if_false, pure_eq, bind_mk_ok, List.append_assoc,
    List.nil_append, List.append_nil, List.cons_append, List.singleton_append]

/-- The serialization tail either succeeds or raises one of its two
no-content failures with status 204. -/
theorem finalizeStage_shape (env : Env) (fmt : OutFmt) :
    (∃ v, (finalizeStage env fmt).1 = Except.ok v) ∨
    (∃ d, (finalizeStage env fmt).1 =
      Except.error (PyExn.httpException 204 d)) := by
  unfold finalizeStage
  simp only [tellEv, bind_mk_ok]
  by_cases hh : env.htmlContent = "" ∨ (pyStrip env.htmlContent).length < 100
  · rw [if_pos hh]
    right; exact ⟨_, rfl⟩
  · rw [if_neg hh]
    simp only [tellEv, bind_mk_ok]
    by_cases hnf : needsFallback env fmt = true
    · simp only [hnf, if_true]
      obtain ⟨v, t, hv, -⟩ := getFallbackContent_spec env fmt
      rw [hv]
      simp only [bind_mk_ok, pure_eq]
      by_cases hs : v = "" ∨ pyStrip v = ""
      · rw [if_pos hs]; right; exact ⟨_, rfl⟩
      · rw [if_neg hs]; left; exact ⟨_, rfl⟩
    · simp only [Bool.not_eq_true] at hnf
      simp only [hnf, Bool.false_eq_true, if_false, pure_eq, bind_mk_ok]
      cases he : extractedValue env fmt with
      | none => right; exact ⟨_, rfl⟩
      | some e =>
        dsimp only
        by_cases hs : e = "" ∨ pyStrip e = ""
        · rw [if_pos hs]; right; exact ⟨_, rfl⟩
        · rw [if_neg hs]; left; exact ⟨_, rfl⟩

/-- The serialization tail always records the DOM serialization call. -/
theorem finalizeStage_head (env : Env) (fmt : OutFmt) :
    Ev.domSerialized ∈ (finalizeStage env fmt).2 := by
  unfold finalizeStage
  simp only [tellEv, bind_mk_ok]
  exact List.mem_append_left _ (List.mem_singleton_self _)

/-- The extraction phase either succeeds or raises a no-content failure
with status 204; it never raises any other failure. -/
theorem extractionPhase_shape (env : Env) (fmt : OutFmt) :
    (∃ v, (extractionPhase env fmt).1 = Except.ok v) ∨
    (∃ d, (extractionPhase env fmt).1 =
      Except.error (PyExn.httpException 204 d)) := by
  unfold extractionPhase
  simp only [tellEv, bind_mk_ok]
  rw [earlyJobStage_spec, bind_mk_ok]
  dsimp only
  cases earlyResultOf env fmt with
  | some content => left; exact ⟨content, rfl⟩
  | none => exact finalizeStage_shape env fmt

/-- The extraction phase records the scroll interaction and at least one
extraction stage: the job-selector extraction in text mode, the DOM
serialization in markup mode. -/
theorem extractionPhase_starts (env : Env) (fmt : OutFmt) :
    Ev.scrolled ∈ (extractionPhase env fmt).2 ∧
    (Ev.jobExtract ∈ (extractionPhase env fmt).2 ∨
     Ev.domSerialized ∈ (extractionPhase env fmt).2) := by
  unfold extractionPhase
  simp only [tellEv, bind_mk_ok]
  rw [earlyJobStage_spec, bind_mk_ok]
  dsimp only
  refine ⟨by simp, ?_⟩
  cases fmt with
  | text => left; simp
  | html =>
    right
    have : earlyResultOf env OutFmt.html = none := rfl
    rw [this]
    simp [finalizeStage_head env OutFmt.html]

/-- When the early job stage accepts nothing, the extraction phase is the
serialization tail with a scroll, DOM-cleaning and possible job-extract
prefix on its trace. -/
theorem extractionPhase_early_none (env : Env) (fmt : OutFmt)
    (hearly : earlyResultOf env fmt = none) :
    extractionPhase env fmt =
      ((finalizeStage env fmt).1,
       Ev.scrolled :: Ev.domCleaned ::
         ((if fmt = OutFmt.text then [Ev.jobExtract] else []) ++
           (finalizeStage env fmt).2)) := by
  unfold extractionPhase
  simp only [tellEv, bind_mk_ok]
  rw [earlyJobStage_spec, bind_mk_ok, hearly]
  dsimp only
  simp only [List.append_assoc, List.nil_append, List.append_nil,
    List.cons_append, List.singleton_append]

/-- Behavior of the serialization tail when the fallback fires: the
fallback stage runs, its stripped result is returned when non-empty, and
the terminal no-content failure is raised when it strips to nothing. -/
theorem finalizeStage_fallback (env : Env) (fmt : OutFmt) (v : String)
    (hhtml : ¬(env.htmlContent = "" ∨ (pyStrip env.htmlContent).length < 100))
    (hnf : needsFallback env fmt = true)
    (hfb : (getFallbackContent env fmt).1 = Except.ok v) :
    Ev.fallbackStage ∈ (finalizeStage env fmt).2 ∧
    (pyStrip v ≠ "" → (finalizeStage env fmt).1 = Except.ok (pyStrip v)) ∧
    (pyStrip v = "" → (finalizeStage env fmt).1 =
       Except.error (PyExn.httpException 204 "Could not extract content")) := by
  obtain ⟨w, t, hw, -⟩ := getFallbackContent_spec env fmt
  have hwv : w = v := by
    rw [hw] at hfb
    exact Except.ok.inj hfb
  subst hwv
  unfold finalizeStage
  simp only [tellEv, bind_mk_ok]
  rw [if_neg hhtml]
  simp only [tellEv, bind_mk_ok, hnf, if_true]
  rw [hw]
  simp only [bind_mk_ok, pure_eq]
  by_cases hs : w = "" ∨ pyStrip w = ""
  · rw [if_pos hs]
    have hsw : pyStrip w = "" := by
      rcases hs with rfl | hs2
      · rfl
      · exact hs2
    exact ⟨by simp, fun hne => absurd hsw hne, fun _ => rfl⟩
  · rw [if_neg hs]
    refine ⟨by simp, fun _ => rfl, fun hz => ?_⟩
    exact absurd (Or.inr hz) hs

theorem cleanupEvents_mem (env : Env) (b : Bool) :
    ∀ e ∈ cleanupEvents env b, e = Ev.closePageCalled ∨ e = Ev.closeCtxCalled := by
  intro e he
  unfold cleanupEvents at he
  by_cases h : pageAcquired env = true
  · rw [if_pos h] at he
    cases b <;> simp at he <;> tauto
  · rw [if_neg h] at he
    simp at he

theorem noExtraction_of_mem {t : List Ev}
    (h : ∀ e ∈ t, e = Ev.ctxCreated ∨ e = Ev.pageCreated ∨ e = Ev.routeInstalled ∨
      e = Ev.navigate ∨ e = Ev.navSleep ∨ e = Ev.renderWaited ∨ e = Ev.check404Ran ∨
      e = Ev.closePageCalled ∨ e = Ev.closeCtxCalled) :
    noExtractionEvents t = true := by
  rw [noExtractionEvents, List.all_eq_true]
  intro e he
  rcases h e he with rfl|rfl|rfl|rfl|rfl|rfl|rfl|rfl|rfl <;> rfl

/-- Claim C2: a navigation committed with HTTP status 404 whose rendered
body text is under the 300-character threshold and contains the not-found
phrasing raises the not-found failure with status 404, and no extraction
stage runs before the call terminates. -/
theorem claimC2_real_404 (env : Env) (b : Bool) (fmt : OutFmt) (bodyText : String)
    (hacq : pageAcquired env = true)
    (hnav : navResult env.nav = Except.ok (some 404))
    (hbody : env.bodyEval = Except.ok bodyText)
    (hshort : (pyLower bodyText).length < 300)
    (hphrase : containsSub (pyLower bodyText) "page not found" = true) :
    (get_page_content env b fmt).1 =
      Except.error (PyExn.httpException 404 "Target URL returned HTTP 404") ∧
    noExtractionEvents (get_page_content env b fmt).2 = true := by
  rcases hpair : navigateWithRetry env.nav with ⟨rr, navT⟩
  have hrr : rr = Except.ok (some 404) := by
    have h0 := hnav
    rw [navResult, hpair] at h0
    exact h0
  subst hrr
  have h4 : check404Value env = true := by
    rw [check404Value, hbody]
    dsimp only
    rw [check404Script, if_pos hshort, List.any_eq_true]
    exact ⟨"page not found", by simp [notFoundMarkers], hphrase⟩
  have hnav' : navigateAux env.nav none = (Except.ok (some 404), navT) := hpair
  have hbodyEq := tryBody_hard404 env fmt (some 404) navT hacq hnav' (by decide) h4
  have hgp1 : (get_page_content env b fmt).1 =
      (match (tryBody env fmt).1 with
       | .ok content => Except.ok content
       | .error e => Except.error (classifyExn e)) := rfl
  have hgp2 : (get_page_content env b fmt).2 =
      (tryBody env fmt).2 ++ cleanupEvents env b := rfl
  have hnavEvents : ∀ e ∈ navT, e = Ev.navigate ∨ e = Ev.navSleep := by
    intro e he
    have h0 := navigateAux_events env.nav none e
    rw [hnav'] at h0
    exact h0 he
  constructor
  · rw [hgp1, hbodyEq]
    rfl
  · apply noExtraction_of_mem
    intro e he
    rw [hgp2, hbodyEq] at he
    simp only [List.cons_append, List.mem_cons, List.mem_append,
      List.mem_singleton, List.append_assoc] at he
    rcases he with rfl | rfl | rfl | he | rfl | rfl | he0 | he
    · tauto
    · tauto
    · tauto
    · rcases hnavEvents e he with rfl | rfl <;> tauto
    · tauto
    · tauto
    · cases he0
    · rcases cleanupEvents_mem env b e he with rfl | rfl <;> tauto

/-- Claim C2 witness: the theorem instantiated on a concrete 404
environment. -/
theorem claimC2_real_404_witness :
    pageAcquired env404 = true ∧
    (get_page_content env404 true OutFmt.text).1 =
      Except.error (PyExn.httpException 404 "Target URL returned HTTP 404") :=
  ⟨rfl, (claimC2_real_404 env404 true OutFmt.text "Page not found" rfl rfl rfl
    (by decide) (by decide)).1⟩

/-- Claim C10: the soft-error classifier fails closed: when the in-page
evaluation of the body text raises, the real-404 check returns true, so a
navigation committed with an error status on an uninspectable page is
surfaced as the not-found failure for status 404 and the bad-gateway
failure otherwise, never as a soft success. -/
theorem claimC10_fails_closed (env : Env) (b : Bool) (fmt : OutFmt) (r : Option Nat)
    (hacq : pageAcquired env = true)
    (hnav : navResult env.nav = Except.ok r)
    (hs : 400 ≤ statusOf r)
    (heval : env.bodyEval = Except.error ()) :
    check404Value env = true ∧
    (get_page_content env b fmt).1 =
      Except.error (PyExn.httpException (if statusOf r = 404 then 404 else 502)
        ("Target URL returned HTTP " ++ toString (statusOf r))) := by
  have h4 : check404Value env = true := by rw [check404Value, heval]
  rcases hpair : navigateWithRetry env.nav with ⟨rr, navT⟩
  have hrr : rr = Except.ok r := by
    have h0 := hnav
    rw [navResult, hpair] at h0
    exact h0
  subst hrr
  have hbodyEq := tryBody_hard404 env fmt r navT hacq hpair hs h4
  have hgp1 : (get_page_content env b fmt).1 =
      (match (tryBody env fmt).1 with
       | .ok content => Except.ok content
       | .error e => Except.error (classifyExn e)) := rfl
  refine ⟨h4, ?_⟩
  rw [hgp1, hbodyEq]
  rfl

/-- Claim C10 witness: the theorem instantiated on a status-500 navigation
whose classifier evaluation raises. -/
theorem claimC10_fails_closed_witness :
    check404Value envEvalBoom = true ∧
    (get_page_content envEvalBoom true OutFmt.text).1 =
      Except.error (PyExn.httpException
        (if statusOf (some 500) = 404 then 404 else 502)
        ("Target URL returned HTTP " ++ toString (statusOf (some 500)))) :=
  claimC10_fails_closed envEvalBoom true OutFmt.text (some 500) rfl rfl
    (by decide) rfl

/-- Claim C3: a navigation committed with an error status whose rendered
body text is at or over the 300-character threshold and contains a
positive signal term is classified as a soft success: the classifier
returns false, the pipeline proceeds past classification (the scroll
interaction runs and an extraction stage is recorded), and the run never
raises the not-found or bad-gateway failure: it either succeeds or raises
a no-content failure further down the chain. -/
theorem claimC3_soft_success (env : Env) (b : Bool) (fmt : OutFmt)
    (bodyText : String) (r : Option Nat)
    (hacq : pageAcquired env = true)
    (hnav : navResult env.nav = Except.ok r)
    (hs : 400 ≤ statusOf r)
    (hbody : env.bodyEval = Except.ok bodyText)
    (hlong : 300 ≤ (pyLower bodyText).length)
    (hterm : ∃ t ∈ jobTerms, containsSub (pyLower bodyText) t = true) :
    check404Value env = false ∧
    Ev.scrolled ∈ (get_page_content env b fmt).2 ∧
    (Ev.jobExtract ∈ (get_page_content env b fmt).2 ∨
     Ev.domSerialized ∈ (get_page_content env b fmt).2) ∧
    ((∃ v, (get_page_content env b fmt).1 = Except.ok v) ∨
     (∃ d, (get_page_content env b fmt).1 =
        Except.error (PyExn.httpException 204 d))) := by
  have h4 : check404Value env = false := by
    rw [check404Value, hbody]
    dsimp only
    rw [check404Script, if_neg (by omega)]
    simp only [Bool.not_eq_false']
    rw [List.any_eq_true]
    exact hterm
  rcases hpair : navigateWithRetry env.nav with ⟨rr, navT⟩
  have hrr : rr = Except.ok r := by
    have h0 := hnav
    rw [navResult, hpair] at h0
    exact h0
  subst hrr
  have hbodyEq := tryBody_soft env fmt r navT hacq hpair hs h4
  have hgp1 : (get_page_content env b fmt).1 =
      (match (tryBody env fmt).1 with
       | .ok content => Except.ok content
       | .error e => Except.error (classifyExn e)) := rfl
  have hgp2 : (get_page_content env b fmt).2 =
      (tryBody env fmt).2 ++ cleanupEvents env b := rfl
  obtain ⟨hscroll, hstage⟩ := extractionPhase_starts env fmt
  refine ⟨h4, ?_, ?_, ?_⟩
  · rw [hgp2, hbodyEq]
    simp only [List.cons_append, List.mem_cons, List.mem_append]
    tauto
  · rw [hgp2, hbodyEq]
    simp only [List.cons_append, List.mem_cons, List.mem_append]
    rcases hstage with h | h
    · left; tauto
    · right; tauto
  · rcases extractionPhase_shape env fmt with ⟨v, hv⟩ | ⟨d, hd⟩
    · left
      refine ⟨v, ?_⟩
      rw [hgp1, hbodyEq]
      dsimp only
      rw [hv]
    · right
      refine ⟨d, ?_⟩
      rw [hgp1, hbodyEq]
      dsimp only
      rw [hd]
      rfl

set_option maxRecDepth 8000 in
/-- Claim C3 witness: the theorem instantiated on a concrete soft-404
environment whose long body text names a positive signal term. -/
theorem claimC3_soft_success_witness :
    check404Value envSoft = false ∧
    Ev.scrolled ∈ (get_page_content envSoft true OutFmt.text).2 :=
  ⟨(claimC3_soft_success envSoft true OutFmt.text softBody (some 404) rfl rfl
      (by decide) rfl (by decide) ⟨"apply", by decide, by decide⟩).1,
   (claimC3_soft_success envSoft true OutFmt.text softBody (some 404) rfl rfl
      (by decide) rfl (by decide) ⟨"apply", by decide, by decide⟩).2.1⟩

/-- Claim C4: when the run reaches the primary extraction with a committed
non-error navigation and the primary result is missing, empty, or shorter
than 50 characters once stripped, the fallback stage runs; its stripped
result is returned when non-empty, and when it strips to nothing the run
raises the terminal no-content failure. -/
theorem claimC4_fallback_chain (env : Env) (b : Bool) (fmt : OutFmt)
    (v : String) (r : Option Nat)
    (hacq : pageAcquired env = true)
    (hnav : navResult env.nav = Except.ok r)
    (hs : statusOf r < 400)
    (hearly : earlyResultOf env fmt = none)
    (hhtml : ¬(env.htmlContent = "" ∨ (pyStrip env.htmlContent).length < 100))
    (hprim : needsFallback env fmt = true)
    (hfb : (getFallbackContent env fmt).1 = Except.ok v) :
    Ev.fallbackStage ∈ (get_page_content env b fmt).2 ∧
    (pyStrip v ≠ "" → (get_page_content env b fmt).1 = Except.ok (pyStrip v)) ∧
    (pyStrip v = "" → (get_page_content env b fmt).1 =
       Except.error (PyExn.httpException 204 "Could not extract content")) := by
  rcases hpair : navigateWithRetry env.nav with ⟨rr, navT⟩
  have hrr : rr = Except.ok r := by
    have h0 := hnav
    rw [navResult, hpair] at h0
    exact h0
  subst hrr
  have hbodyEq := tryBody_lt400 env fmt r navT hacq hpair hs
  have hphase := extractionPhase_early_none env fmt hearly
  obtain ⟨hfbMem, hok, herr⟩ := finalizeStage_fallback env fmt v hhtml hprim hfb
  have hgp1 : (get_page_content env b fmt).1 =
      (match (tryBody env fmt).1 with
       | .ok content => Except.ok content
       | .error e => Except.error (classifyExn e)) := rfl
  have hgp2 : (get_page_content env b fmt).2 =
      (tryBody env fmt).2 ++ cleanupEvents env b := rfl
  refine ⟨?_, fun hne => ?_, fun hz => ?_⟩
  · rw [hgp2, hbodyEq, hphase]
    dsimp only
    simp only [List.cons_append, List.mem_cons, List.mem_append]
    tauto
  · rw [hgp1, hbodyEq, hphase]
    dsimp only
    rw [hok hne]
  · rw [hgp1, hbodyEq, hphase]
    dsimp only
    rw [herr hz]
    rfl

/-- Claim C4 witness: the theorem instantiated on a run whose primary
extraction yields nothing and whose fallback evaluation returns a line of
usable text. -/
theorem claimC4_fallback_chain_witness :
    Ev.fallbackStage ∈ (get_page_content envFb true OutFmt.text).2 ∧
    (get_page_content envFb true OutFmt.text).1 =
      Except.ok (pyStrip (cleanExtractedText "fallback content line")) :=
  ⟨(claimC4_fallback_chain envFb true OutFmt.text
      (cleanExtractedText "fallback content line") (some 200) rfl rfl
      (by decide) rfl (by decide) rfl rfl).1,
   (claimC4_fallback_chain envFb true OutFmt.text
      (cleanExtractedText "fallback content line") (some 200) rfl rfl
      (by decide) rfl (by decide) rfl rfl).2.1 (by decide)⟩

/-- Claim C1 counterexample: a run whose page creation call raises leaves
the already-created browsing context behind: the run terminates with the
mapped internal error, its trace shows the context acquisition, and no
close call is ever made, so the claim that the acquired browsing context
is always released exactly once fails on this execution. -/
theorem claimC1_counterexample :
    (get_page_content envLeak true OutFmt.text).1 =
      Except.error (PyExn.httpException 500 "Failed to fetch: Error") ∧
    Ev.ctxCreated ∈ (get_page_content envLeak true OutFmt.text).2 ∧
    (get_page_content envLeak true OutFmt.text).2.count Ev.closeCtxCalled = 0 ∧
    (get_page_content envLeak true OutFmt.text).2.count Ev.closePageCalled = 0 :=
  ⟨rfl, by decide, by decide, by decide⟩

/-- Claim C1 (amended): on every run whose session preparation ran to
completion, the finally block runs exactly once on every exit path: the
page close is called exactly once; the context close is called exactly
once when the page close does not raise and is skipped when it does; and
errors raised while closing are suppressed, leaving the result of the call
unchanged. When session preparation itself fails after creating the
context, the context is not closed (see the counterexample). -/
theorem claimC1_session_release (env : Env) (b : Bool) (fmt : OutFmt)
    (h : pageAcquired env = true) :
    (get_page_content env b fmt).2.count Ev.closePageCalled = 1 ∧
    ((get_page_content env b fmt).2.count Ev.closeCtxCalled = if b then 1 else 0) ∧
    (get_page_content env b fmt).1 = (get_page_content env true fmt).1 := by
  have hbody := noClose_counts (tryBody_noClose env fmt)
  have htr : (get_page_content env b fmt).2 =
      (tryBody env fmt).2 ++ cleanupEvents env b := rfl
  refine ⟨?_, ?_, rfl⟩
  · rw [htr, List.count_append, hbody.1]
    cases b <;> simp [cleanupEvents, h]
  · rw [htr, List.count_append, hbody.2]
    cases b <;> simp [cleanupEvents, h]

/-- Claim C1 witness: the amended theorem instantiated on a successful
run whose page close raises. -/
theorem claimC1_session_release_witness :
    pageAcquired envHappy = true ∧
    (get_page_content envHappy false OutFmt.text).2.count Ev.closePageCalled = 1 :=
  ⟨rfl, (claimC1_session_release envHappy false OutFmt.text rfl).1⟩

end V2

namespace V1

open WebRun

/-- Claim C5: a wait strategy that times out does not immediately fail
the attempt: the controller requests the DOM serialized so far, accepts
it as the committed result whenever it is non-empty and contains an
opening body tag, and only otherwise moves on to the remaining
strategies (remembering the timeout). -/
theorem claimC5_partial_rescue (url m : String) (rescue : Except Unit String)
    (rest : List StratOutcome) (lastError : Option String) :
    Ev.contentRescue ∈
      (navFallbackAux url (StratOutcome.timeout m rescue :: rest) lastError).2 ∧
    (∀ html, rescue = Except.ok html →
      html ≠ "" → containsSub (pyLower html) "<body" = true →
      (navFallbackAux url (StratOutcome.timeout m rescue :: rest) lastError).1 =
        Except.ok html) ∧
    (∀ html, rescue = Except.ok html →
      ¬(html ≠ "" ∧ containsSub (pyLower html) "<body" = true) →
      navFallbackAux url (StratOutcome.timeout m rescue :: rest) lastError =
        ((navFallbackAux url rest (some m)).1,
         Ev.navigate :: Ev.contentRescue :: (navFallbackAux url rest (some m)).2)) ∧
    (rescue = Except.error () →
      navFallbackAux url (StratOutcome.timeout m rescue :: rest) lastError =
        ((navFallbackAux url rest (some m)).1,
         Ev.navigate :: Ev.contentRescue :: (navFallbackAux url rest (some m)).2)) := by
  cases rescue with
  | ok html =>
    by_cases hcond : html ≠ "" ∧ containsSub (pyLower html) "<body" = true
    · refine ⟨?_, ?_, ?_, ?_⟩
      · simp [navFallbackAux, hcond]
      · intro h2 hh _ _
        obtain rfl : html = h2 := Except.ok.inj hh
        simp [navFallbackAux, hcond]
      · intro h2 hh hnc
        obtain rfl : html = h2 := Except.ok.inj hh
        exact absurd hcond hnc
      · intro hh; cases hh
    · refine ⟨?_, ?_, ?_, ?_⟩
      · simp [navFallbackAux, hcond]
      · intro h2 hh hne hbody
        obtain rfl : html = h2 := Except.ok.inj hh
        exact absurd ⟨hne, hbody⟩ hcond
      · intro h2 hh hnc
        obtain rfl : html = h2 := Except.ok.inj hh
        simp [navFallbackAux, hcond]
      · intro hh; cases hh
  | error u =>
    refine ⟨?_, ?_, ?_, ?_⟩
    · simp [navFallbackAux]
    · intro h2 hh; cases hh
    · intro h2 hh; cases hh
    · intro _
      simp [navFallbackAux]

/-- Claim C5 witness: the theorem instantiated on a timed-out strategy
whose partial DOM contains a body tag. -/
theorem claimC5_partial_rescue_witness :
    ("<html><body>x</body></html>" ≠ "" ∧
      containsSub (pyLower "<html><body>x</body></html>") "<body" = true) ∧
    (navFallbackAux "u"
      [StratOutcome.timeout "t" (Except.ok "<html><body>x</body></html>")] none).1 =
      Except.ok "<html><body>x</body></html>" :=
  ⟨⟨by decide, by decide⟩,
   (claimC5_partial_rescue "u" "t" (Except.ok "<html><body>x</body></html>") [] none).2.1
     "<html><body>x</body></html>" rfl (by decide) (by decide)⟩

/-- Events a navigation fallback can record. -/
theorem navFallbackAux_events (url : String) (outs : List StratOutcome) :
    ∀ lastError, ∀ e ∈ (navFallbackAux url outs lastError).2,
      e = Ev.navigate ∨ e = Ev.contentRescue := by
  induction outs with
  | nil =>
    intro lastError e he
    cases lastError <;> simp [navFallbackAux] at he
  | cons o rest ih =>
    intro lastError e he
    cases o with
    | ok html =>
      simp [navFallbackAux] at he
      exact Or.inl he
    | err m =>
      simp [navFallbackAux] at he
      exact Or.inl he
    | timeout m rescue =>
      cases rescue with
      | ok html =>
        by_cases hcond : html ≠ "" ∧ containsSub (pyLower html) "<body" = true
        · simp [navFallbackAux, hcond] at he
          tauto
        · simp [navFallbackAux, hcond] at he
          rcases he with rfl | rfl | he
          · tauto
          · tauto
          · exact ih (some m) e he
      | error u =>
        simp [navFallbackAux] at he
        rcases he with rfl | rfl | he
        · tauto
        · tauto
        · exact ih (some m) e he

theorem count_zero_of_nav_events {url : String} {outs : List StratOutcome}
    {lastError : Option String} {a : Ev}
    (ha1 : a ≠ Ev.navigate) (ha2 : a ≠ Ev.contentRescue) :
    (navFallbackAux url outs lastError).2.count a = 0 := by
  rw [List.count_eq_zero]
  intro hm
  rcases navFallbackAux_events url outs lastError a hm with rfl | rfl
  · exact ha1 rfl
  · exact ha2 rfl

theorem filter_backoff_nav {url : String} {outs : List StratOutcome}
    {lastError : Option String} :
    (navFallbackAux url outs lastError).2.filter isBackoff = [] := by
  rw [List.filter_eq_nil_iff]
  intro a ha
  rcases navFallbackAux_events url outs lastError a ha with rfl | rfl <;>
    simp [isBackoff]

/-- The retry loop under a behavior in which every remaining attempt
fails: it raises the terminal scraping error, opens one fresh context per
remaining attempt, and backs off two to the power of the attempt index
seconds after every attempt but the last. -/
theorem runAux_all_fail (envs : Nat → List StratOutcome) (url : String)
    (maxRetries : Nat) :
    ∀ remaining attempt, attempt + remaining = maxRetries + 1 →
    (∀ i, attempt ≤ i → i ≤ maxRetries →
      ∃ e, (navFallbackAux url (envs i) none).1 = Except.error e) →
    (runAux envs url maxRetries attempt remaining).1 =
      Except.error (Err.scrapingError (finalMsg url maxRetries)) ∧
    (runAux envs url maxRetries attempt remaining).2.count Ev.newContext =
      remaining ∧
    (runAux envs url maxRetries attempt remaining).2.filter isBackoff =
      (List.range' attempt (remaining - 1)).map (fun i => Ev.backoff (2 ^ i)) := by
  intro remaining
  induction remaining with
  | zero =>
    intro attempt hsum hfail
    exact ⟨rfl, rfl, rfl⟩
  | succ k ih =>
    intro attempt hsum hfail
    obtain ⟨e, he⟩ := hfail attempt (le_refl _) (by omega)
    obtain ⟨ih1, ih2, ih3⟩ := ih (attempt + 1) (by omega)
      (fun i hi1 hi2 => hfail i (by omega) hi2)
    rw [runAux, he]
    dsimp only
    have hnavCount : (navFallbackAux url (envs attempt) none).2.count
        Ev.newContext = 0 :=
      count_zero_of_nav_events (by simp) (by simp)
    refine ⟨ih1, ?_, ?_⟩
    · simp only [List.count_cons, List.count_append, hnavCount, ih2]
      by_cases hlt : attempt < maxRetries
      · rw [if_pos hlt]
        simp
        omega
      · rw [if_neg hlt]
        simp
        omega
    · by_cases hlt : attempt < maxRetries
      · rw [if_pos hlt]
        have hk : 1 ≤ k := by omega
        have hrange : List.range' attempt (k + 1 - 1) =
            attempt :: List.range' (attempt + 1) (k - 1) := by
          have h9 : k + 1 - 1 = (k - 1) + 1 := by omega
          rw [h9, List.range'_succ]
        rw [hrange]
        simp [List.filter_cons, List.filter_append, filter_backoff_nav, ih3,
          isBackoff]
      · rw [if_neg hlt]
        have hk : k = 0 := by omega
        subst hk
        simp [List.filter_cons, List.filter_append, filter_backoff_nav, ih3,
          isBackoff]

/-- Claim C6: when every strategy of every attempt fails, the retry loop
of run performs exactly maxRetries plus one attempts, each on a fresh
browsing context, backs off two to the power of the attempt index seconds
between consecutive attempts (base one second), and raises the terminal
scraping failure whose message names the URL and the attempt count. -/
theorem claimC6_retry_loop (envs : Nat → List StratOutcome) (url : String)
    (maxRetries : Nat)
    (hfail : ∀ i, i ≤ maxRetries →
      ∃ e, (navFallbackAux url (envs i) none).1 = Except.error e) :
    (run envs url maxRetries).1 =
      Except.error (Err.scrapingError
        ("Failed to scrape " ++ url ++ " after " ++
          toString (maxRetries + 1) ++ " attempts")) ∧
    (run envs url maxRetries).2.count Ev.newContext = maxRetries + 1 ∧
    (run envs url maxRetries).2.filter isBackoff =
      (List.range maxRetries).map (fun i => Ev.backoff (2 ^ i)) ∧
    url.data <:+:
      ("Failed to scrape " ++ url ++ " after " ++
        toString (maxRetries + 1) ++ " attempts").data := by
  obtain ⟨h1, h2, h3⟩ := runAux_all_fail envs url maxRetries (maxRetries + 1) 0
    (by omega) (fun i _ hi2 => hfail i hi2)
  refine ⟨h1, h2, ?_, ?_⟩
  · have hrun : run envs url maxRetries =
        runAux envs url maxRetries 0 (maxRetries + 1) := rfl
    rw [hrun, h3]
    have h9 : maxRetries + 1 - 1 = maxRetries := by omega
    rw [h9, ← List.range_eq_range']
  · refine ⟨"Failed to scrape ".data,
      (" after " ++ toString (maxRetries + 1) ++ " attempts").data, ?_⟩
    simp only [String.data_append, List.append_assoc]

/-- Claim C6 witness: the theorem instantiated on a target that times out
on every strategy of every attempt, with one retry allowed. -/
theorem claimC6_retry_loop_witness :
    (run (fun _ => [StratOutcome.timeout "t" (Except.error ())])
        "https://example.com" 1).1 =
      Except.error (Err.scrapingError
        ("Failed to scrape " ++ "https://example.com" ++ " after " ++
          toString (1 + 1) ++ " attempts")) :=
  (claimC6_retry_loop (fun _ => [StratOutcome.timeout "t" (Except.error ())])
    "https://example.com" 1 (fun _ _ => ⟨Err.timeoutError "t", rfl⟩)).1

end V1

namespace V1

theorem runAux_newContext_pos (envs : Nat → List StratOutcome) (url : String)
    (maxRetries attempt k : Nat) :
    1 ≤ (runAux envs url maxRetries attempt (k + 1)).2.count Ev.newContext := by
  rw [runAux]
  cases hnav : (navFallbackAux url (envs attempt) none).1 with
  | ok html =>
    dsimp only
    by_cases hok : html ≠ "" ∧ 500 < (WebRun.pyStrip html).length
    · rw [if_pos hok]
      simp [List.count_cons]
    · rw [if_neg hok]
      simp [List.count_cons, List.count_append]
  | error e =>
    dsimp only
    simp [List.count_cons, List.count_append]

end V1

/-- Claim C7 counterexample: in the v1 retry loop a DNS hard network
error does propagate out of the strategy loop at once, but the outer
retry loop catches it and retries with backoff: with one retry allowed,
the trace shows a backoff sleep and a second fresh context, contradicting
the claim that no further retry attempt or backoff happens after a hard
network error. -/
theorem claimC7_counterexample :
    (V1.navigateWithFallback "https://bad.example/" (V1.dnsFailureOutcomes 0)).1 =
      Except.error (V1.Err.playwrightError
        "net::ERR_NAME_NOT_RESOLVED at https://bad.example/") ∧
    V2.hardNetworkError "net::ERR_NAME_NOT_RESOLVED at https://bad.example/" = true ∧
    (V1.run V1.dnsFailureOutcomes "https://bad.example/" 1).2.count
      V1.Ev.newContext = 2 ∧
    V1.Ev.backoff 1 ∈ (V1.run V1.dnsFailureOutcomes "https://bad.example/" 1).2 :=
  ⟨rfl, by decide, by decide, by decide⟩

/-- Claim C7 (amended): a hard network error is raised without trying the
remaining wait strategies in both pipelines, and the v2 navigation aborts
at once without any further pause; in the v1 service, however, the outer
retry loop catches the propagated error and still retries with backoff
and a fresh session while attempts remain. First conjunct: the v2
strategy loop, after any number of non-hard failures, stops at the first
hard network error without touching the remaining strategies and without
sleeping after it. Second conjunct: the v1 strategy loop propagates a
non-timeout error immediately. Third conjunct: the v1 retry loop, on a
first attempt that fails this way, still backs off and opens a second
context. -/
theorem claimC7_hard_network_abort :
    (∀ (pre : List V2.StratOutcome), ∀ (post : List V2.StratOutcome)
        (e : V2.PyExn) (lastE : Option V2.PyExn),
      (∀ o ∈ pre, ∃ ex, o = V2.StratOutcome.raise ex ∧
        V2.hardNetworkError ex.text = false) →
      V2.hardNetworkError e.text = true →
      V2.navigateAux (pre ++ V2.StratOutcome.raise e :: post) lastE =
        (Except.error e,
         pre.flatMap (fun _ => [V2.Ev.navigate, V2.Ev.navSleep]) ++
           [V2.Ev.navigate])) ∧
    (∀ (url m : String) (rest : List V1.StratOutcome)
        (lastError : Option String),
      V1.navFallbackAux url (V1.StratOutcome.err m :: rest) lastError =
        (Except.error (V1.Err.playwrightError m), [V1.Ev.navigate])) ∧
    (∀ (envs : Nat → List V1.StratOutcome) (url m : String)
        (rest : List V1.StratOutcome) (maxRetries : Nat),
      envs 0 = V1.StratOutcome.err m :: rest →
      1 ≤ maxRetries →
      V1.Ev.backoff 1 ∈ (V1.run envs url maxRetries).2 ∧
      2 ≤ (V1.run envs url maxRetries).2.count V1.Ev.newContext) := by
  refine ⟨?_, ?_, ?_⟩
  · intro pre
    induction pre with
    | nil =>
      intro post e lastE hpre hhard
      simp [V2.navigateAux, V2.tellEv, V2.bind_mk_ok, V2.throwE, hhard]
    | cons o pre' ih =>
      intro post e lastE hpre hhard
      obtain ⟨ex, rfl, hex⟩ := hpre o (List.mem_cons_self o pre')
      have hne : (pre' ++ V2.StratOutcome.raise e :: post).isEmpty = false := by
        simp
      have ihres := ih post e (some ex)
        (fun o2 ho2 => hpre o2 (List.mem_cons_of_mem _ ho2)) hhard
      simp only [List.cons_append, V2.navigateAux, V2.tellEv, V2.bind_mk_ok,
        hex, Bool.false_eq_true, if_false, hne, ihres]
      simp
      rw [ihres]
  · intro url m rest lastError
    rfl
  · intro envs url m rest maxRetries henv hmr
    obtain ⟨j, rfl⟩ : ∃ j, maxRetries = j + 1 := ⟨maxRetries - 1, by omega⟩
    have hrun : V1.run envs url (j + 1) =
        V1.runAux envs url (j + 1) 0 (j + 2) := rfl
    have hB : V1.navFallbackAux url (V1.StratOutcome.err m :: rest) none =
        (Except.error (V1.Err.playwrightError m), [V1.Ev.navigate]) := rfl
    rw [hrun, V1.runAux, henv, hB]
    dsimp only
    rw [if_pos (by omega : 0 < j + 1)]
    have hpos := V1.runAux_newContext_pos envs url (j + 1) 1 j
    constructor
    · simp
    · simp only [List.count_cons, List.count_append]
      simp
      omega

/-- Claim C7 witness: the amended theorem instantiated on a strategy list
whose first strategy times out and whose second raises a connection
refusal, with a third strategy left untouched. -/
theorem claimC7_hard_network_witness :
    V2.navigateAux
      [V2.StratOutcome.raise (V2.PyExn.exn "TimeoutError" "Timeout 45000ms exceeded"),
       V2.StratOutcome.raise (V2.PyExn.exn "Error" "net::ERR_CONNECTION_REFUSED"),
       V2.StratOutcome.ok (some 200)] none =
      (Except.error (V2.PyExn.exn "Error" "net::ERR_CONNECTION_REFUSED"),
       [V2.Ev.navigate, V2.Ev.navSleep, V2.Ev.navigate]) :=
  claimC7_hard_network_abort.1
    [V2.StratOutcome.raise (V2.PyExn.exn "TimeoutError" "Timeout 45000ms exceeded")]
    [V2.StratOutcome.ok (some 200)]
    (V2.PyExn.exn "Error" "net::ERR_CONNECTION_REFUSED") none
    (by
      intro o ho
      simp only [List.mem_singleton] at ho
      subst ho
      exact ⟨_, rfl, by decide⟩)
    (by decide)

namespace WebRun

theorem dropWhile_head_not (p : Char → Bool) :
    ∀ (l : List Char) (c : Char), (l.dropWhile p).head? = some c → p c = false := by
  intro l
  induction l with
  | nil => intro c h; simp [List.dropWhile] at h
  | cons a l2 ih =>
    intro c h
    by_cases ha : p a = true
    · rw [List.dropWhile_cons_of_pos ha] at h
      exact ih c h
    · rw [List.dropWhile_cons_of_neg ha] at h
      simp at h
      subst h
      simpa using ha

theorem dropWhile_eq_self_of_head (p : Char → Bool) (l : List Char)
    (h : ∀ c, l.head? = some c → p c = false) : l.dropWhile p = l := by
  cases l with
  | nil => rfl
  | cons a l2 =>
    have ha : p a = false := h a rfl
    exact List.dropWhile_cons_of_neg (by simp [ha])

theorem mem_stripChars {c : Char} {l : List Char} (h : c ∈ stripChars l) :
    c ∈ l := by
  unfold stripChars at h
  rw [List.mem_reverse] at h
  have h2 := (List.dropWhile_sublist _).mem h
  rw [List.mem_reverse] at h2
  exact (List.dropWhile_sublist _).mem h2

theorem stripChars_getLast (l : List Char) :
    ∀ c, (stripChars l).getLast? = some c → c.isWhitespace = false := by
  intro c h
  unfold stripChars at h
  rw [List.getLast?_reverse] at h
  exact dropWhile_head_not Char.isWhitespace _ c h

theorem stripChars_head (l : List Char) :
    ∀ c, (stripChars l).head? = some c → c.isWhitespace = false := by
  intro c h
  unfold stripChars at h
  rw [List.head?_reverse] at h
  set X := ((l.dropWhile Char.isWhitespace).reverse.dropWhile Char.isWhitespace)
    with hX
  cases hXe : X with
  | nil => rw [hXe] at h; simp at h
  | cons a as =>
    have hne : X ≠ [] := by rw [hXe]; simp
    obtain ⟨u, hu⟩ := List.dropWhile_suffix
      (l := (l.dropWhile Char.isWhitespace).reverse) Char.isWhitespace
    have hlast : X.getLast? = ((l.dropWhile Char.isWhitespace).reverse).getLast? := by
      rw [← hu]
      exact (List.getLast?_append_of_ne_nil u hne).symm
    rw [h] at hlast
    rw [List.getLast?_reverse] at hlast
    exact dropWhile_head_not Char.isWhitespace l c hlast.symm

theorem stripChars_eq_self (l : List Char)
    (h1 : ∀ c, l.head? = some c → c.isWhitespace = false)
    (h2 : ∀ c, l.getLast? = some c → c.isWhitespace = false) :
    stripChars l = l := by
  unfold stripChars
  rw [dropWhile_eq_self_of_head _ l h1]
  rw [dropWhile_eq_self_of_head _ l.reverse
    (fun c hc => h2 c (by rwa [List.head?_reverse] at hc))]
  exact List.reverse_reverse l

end WebRun

namespace WebRun

theorem splitCharAux_not_mem (sep : Char) :
    ∀ (l acc : List Char), sep ∉ l →
      splitCharAux sep l acc = [acc.reverse ++ l] := by
  intro l
  induction l with
  | nil => intro acc h; simp [splitCharAux]
  | cons c cs ih =>
    intro acc h
    have hc : ¬ c = sep := fun h9 => h (h9 ▸ List.mem_cons_self c cs)
    simp only [splitCharAux]
    rw [if_neg hc, ih (c :: acc) (fun hm => h (List.mem_cons_of_mem c hm))]
    simp

theorem splitCharAux_append (sep : Char) :
    ∀ (l₁ l₂ acc : List Char), sep ∉ l₁ →
      splitCharAux sep (l₁ ++ sep :: l₂) acc =
        (acc.reverse ++ l₁) :: splitCharAux sep l₂ [] := by
  intro l₁
  induction l₁ with
  | nil =>
    intro l₂ acc h
    simp only [List.nil_append, splitCharAux]
    simp
  | cons c cs ih =>
    intro l₂ acc h
    have hc : ¬ c = sep := fun h9 => h (h9 ▸ List.mem_cons_self c cs)
    simp only [List.cons_append, splitCharAux, List.append_eq]
    rw [if_neg hc, ih l₂ (c :: acc) (fun hm => h (List.mem_cons_of_mem c hm))]
    simp

theorem splitChar_join :
    ∀ (lines : List String), lines ≠ [] →
      (∀ x ∈ lines, ('\n' : Char) ∉ x.data) →
      pySplitChar '\n' (pyJoin "\n" lines) = lines := by
  intro lines
  induction lines with
  | nil => intro hne; exact absurd rfl hne
  | cons x xs ih =>
    intro hne h
    cases xs with
    | nil =>
      show (splitCharAux '\n' (pyJoin "\n" [x]).data []).map (fun l => ⟨l⟩) = [x]
      rw [show (pyJoin "\n" [x]) = x from rfl]
      rw [splitCharAux_not_mem '\n' x.data [] (h x (by simp))]
      simp
    | cons y ys =>
      have hx : ('\n' : Char) ∉ x.data := h x (by simp)
      have hdata : (pyJoin "\n" (x :: y :: ys)).data =
          x.data ++ '\n' :: (pyJoin "\n" (y :: ys)).data := by
        show (x ++ "\n" ++ pyJoin "\n" (y :: ys)).data = _
        simp [String.data_append, List.append_assoc]
      show (splitCharAux '\n' (pyJoin "\n" (x :: y :: ys)).data []).map
          (fun l => ⟨l⟩) = x :: y :: ys
      rw [hdata, splitCharAux_append '\n' x.data _ [] hx]
      have hih := ih (by simp) (fun z hz => h z (List.mem_cons_of_mem _ hz))
      show (⟨List.reverse [] ++ x.data⟩ : String) ::
          (splitCharAux '\n' (pyJoin "\n" (y :: ys)).data []).map (fun l => ⟨l⟩) =
          x :: y :: ys
      rw [show (splitCharAux '\n' (pyJoin "\n" (y :: ys)).data []).map
          (fun l => (⟨l⟩ : String)) = pySplitChar '\n' (pyJoin "\n" (y :: ys))
        from rfl]
      rw [hih]
      rfl

end WebRun

namespace WebRun

theorem chain_of_no_nl {l : List Char} (h : ('\n' : Char) ∉ l) :
    l.Chain' (fun a b => ¬(a = '\n' ∧ b = '\n')) := by
  induction l with
  | nil => simp
  | cons c cs ih =>
    rw [List.chain'_cons']
    refine ⟨?_, ih (fun hm => h (List.mem_cons_of_mem _ hm))⟩
    intro b hb hab
    exact h (hab.1 ▸ List.mem_cons_self c cs)

theorem pyJoin_ne_nil (y : String) (ys : List String) (hy : y ≠ "") :
    (pyJoin "\n" (y :: ys)).data ≠ [] := by
  cases ys with
  | nil =>
    intro h9
    apply hy
    cases y with
    | mk d =>
      simp only [pyJoin] at h9
      exact congrArg String.mk h9
  | cons z zs =>
    have hdata : (pyJoin "\n" (y :: z :: zs)).data =
        y.data ++ '\n' :: (pyJoin "\n" (z :: zs)).data := by
      show (y ++ "\n" ++ pyJoin "\n" (z :: zs)).data = _
      simp [String.data_append, List.append_assoc]
    rw [hdata]
    simp

theorem data_ne_nil_of_ne_empty (x : String) (hx : x ≠ "") : x.data ≠ [] := by
  intro h9
  apply hx
  cases x with
  | mk d =>
    simp at h9
    exact congrArg String.mk h9

theorem join_props :
    ∀ (lines : List String),
      (∀ x ∈ lines, x ≠ "" ∧ ('\n' : Char) ∉ x.data ∧
        (∀ c, x.data.head? = some c → c.isWhitespace = false) ∧
        (∀ c, x.data.getLast? = some c → c.isWhitespace = false)) →
      (pyJoin "\n" lines).data.Chain' (fun a b => ¬(a = '\n' ∧ b = '\n')) ∧
      (∀ c, (pyJoin "\n" lines).data.head? = some c → c.isWhitespace = false) ∧
      (∀ c, (pyJoin "\n" lines).data.getLast? = some c → c.isWhitespace = false) := by
  intro lines
  induction lines with
  | nil =>
    intro h
    refine ⟨by simp [pyJoin], ?_, ?_⟩ <;>
      (intro c hc; simp [pyJoin] at hc)
  | cons x xs ih =>
    intro h
    obtain ⟨hxne, hxnl, hxh, hxl⟩ := h x (by simp)
    cases xs with
    | nil => exact ⟨chain_of_no_nl hxnl, hxh, hxl⟩
    | cons y ys =>
      obtain ⟨hyne, -, -, -⟩ := h y (by simp)
      obtain ⟨hc, hh, hl⟩ := ih (fun z hz => h z (List.mem_cons_of_mem _ hz))
      have hdata : (pyJoin "\n" (x :: y :: ys)).data =
          x.data ++ '\n' :: (pyJoin "\n" (y :: ys)).data := by
        show (x ++ "\n" ++ pyJoin "\n" (y :: ys)).data = _
        simp [String.data_append, List.append_assoc]
      have hJne : (pyJoin "\n" (y :: ys)).data ≠ [] := pyJoin_ne_nil y ys hyne
      have hxd : x.data ≠ [] := data_ne_nil_of_ne_empty x hxne
      refine ⟨?_, ?_, ?_⟩
      · rw [hdata]
        rw [List.chain'_append]
        refine ⟨chain_of_no_nl hxnl, ?_, ?_⟩
        · rw [List.chain'_cons']
          refine ⟨?_, hc⟩
          intro b hb hab
          have h2 := hh b hb
          rw [hab.2] at h2
          exact absurd h2 (by decide)
        · intro a ha b hb hab
          simp only [List.head?_cons, Option.mem_def, Option.some.injEq] at hb
          have h2 := hxl a ha
          rw [hab.1] at h2
          exact absurd h2 (by decide)
      · rw [hdata]
        rw [List.head?_append_of_ne_nil _ hxd]
        exact hxh
      · rw [hdata]
        rw [List.getLast?_append_of_ne_nil x.data (by simp)]
        rw [show ('\n' :: (pyJoin "\n" (y :: ys)).data) =
          ['\n'] ++ (pyJoin "\n" (y :: ys)).data from rfl]
        rw [List.getLast?_append_of_ne_nil ['\n'] hJne]
        exact hl

end WebRun

namespace WebRun

theorem collapseNl_noDouble :
    ∀ (l : List Char) (pending : Nat), pending ≤ 1 →
      (pending = 1 → ∀ c, l.head? = some c → c ≠ '\n') →
      l.Chain' (fun a b => ¬(a = '\n' ∧ b = '\n')) →
      collapseNlAux pending l = List.replicate pending '\n' ++ l := by
  intro l
  induction l with
  | nil =>
    intro pending hp hhead hc
    show emitNl pending = List.replicate pending '\n' ++ []
    rw [emitNl, if_neg (by omega), List.append_nil]
  | cons c cs ih =>
    intro pending hp hhead hc
    by_cases hcn : c = '\n'
    · subst hcn
      have hp0 : pending = 0 := by
        rcases Nat.eq_or_lt_of_le hp with h9 | h9
        · exact absurd rfl (hhead h9 '\n' rfl)
        · omega
      subst hp0
      simp only [collapseNlAux, if_pos rfl]
      have hcs := List.chain'_cons'.mp hc
      have hres := ih 1 (by omega)
        (fun _ c2 hc2 => by
          intro h10
          exact hcs.1 c2 (by simpa using hc2) ⟨rfl, h10⟩)
        hcs.2
      rw [hres]
      simp
    · simp only [collapseNlAux]
      rw [if_neg hcn]
      have hcs := (List.chain'_cons'.mp hc).2
      rw [ih 0 (by omega) (fun h9 => absurd h9 (by decide)) hcs]
      rw [emitNl, if_neg (by omega)]
      simp

theorem splitNN_noDouble :
    ∀ (l acc : List Char),
      l.Chain' (fun a b => ¬(a = '\n' ∧ b = '\n')) →
      splitNNAux l acc = [acc.reverse ++ l] := by
  intro l
  induction l with
  | nil => intro acc h; simp [splitNNAux]
  | cons c₁ rest ih =>
    intro acc h
    cases rest with
    | nil => simp [splitNNAux]
    | cons c₂ rest2 =>
      have hnot : ¬(c₁ = '\n' ∧ c₂ = '\n') := (List.chain'_cons.mp h).1
      rw [splitNNAux, if_neg hnot]
      rw [ih (c₁ :: acc) (List.chain'_cons.mp h).2]
      simp

end WebRun

namespace WebRun

theorem cleanLines_props :
    ∀ (ls : List String) (seen : List (String × Nat)),
      (∀ l ∈ ls, ('\n' : Char) ∉ l.data) →
      ∀ x ∈ cleanLinesAux ls seen, x ≠ "" ∧ ('\n' : Char) ∉ x.data ∧
        (∀ c, x.data.head? = some c → c.isWhitespace = false) ∧
        (∀ c, x.data.getLast? = some c → c.isWhitespace = false) := by
  intro ls
  induction ls with
  | nil => intro seen hls x hx; simp [cleanLinesAux] at hx
  | cons l ls2 ih =>
    intro seen hls x hx
    have hlnl : ('\n' : Char) ∉ l.data := hls l (by simp)
    have hlt : ('\n' : Char) ∉ (pyStrip l).data :=
      fun hm => hlnl (mem_stripChars hm)
    have htail : ∀ l2 ∈ ls2, ('\n' : Char) ∉ l2.data :=
      fun l2 h2 => hls l2 (List.mem_cons_of_mem _ h2)
    rw [cleanLinesAux] at hx
    by_cases h1 : pyStrip l = ""
    · rw [if_pos h1] at hx
      exact ih seen htail x hx
    · rw [if_neg h1] at hx
      by_cases h2 : skipLine (pyStrip l) = true
      · rw [if_pos h2] at hx
        exact ih seen htail x hx
      · rw [if_neg h2] at hx
        by_cases h3 : (pyStrip l).length < 50
        · rw [if_pos h3] at hx
          by_cases h4 : 2 < seenCount seen (pyStrip l) + 1
          · rw [if_pos h4] at hx
            exact ih _ htail x hx
          · rw [if_neg h4] at hx
            by_cases h5 : lowAlphaSkip (pyStrip l) = true
            · rw [if_pos h5] at hx
              exact ih _ htail x hx
            · rw [if_neg h5] at hx
              rcases List.mem_cons.mp hx with rfl | hx2
              · exact ⟨h1, hlt, stripChars_head l.data, stripChars_getLast l.data⟩
              · exact ih _ htail x hx2
        · rw [if_neg h3] at hx
          by_cases h5 : lowAlphaSkip (pyStrip l) = true
          · rw [if_pos h5] at hx
            exact ih seen htail x hx
          · rw [if_neg h5] at hx
            rcases List.mem_cons.mp hx with rfl | hx2
            · exact ⟨h1, hlt, stripChars_head l.data, stripChars_getLast l.data⟩
            · exact ih seen htail x hx2

theorem seenCount_bumpSeen :
    ∀ (seen : List (String × Nat)) (key s : String) (n : Nat),
      seenCount (bumpSeen seen key n) s =
        if key = s then n else seenCount seen s := by
  intro seen
  induction seen with
  | nil =>
    intro key s n
    simp [bumpSeen, seenCount]
  | cons kv rest ih =>
    intro key s n
    rcases kv with ⟨k, v⟩
    by_cases hk : k = key
    · subst hk
      rw [bumpSeen, if_pos rfl]
      by_cases hs : k = s
      · subst hs
        simp [seenCount]
      · simp [seenCount, hs]
    · rw [bumpSeen, if_neg hk]
      by_cases hs : k = s
      · subst hs
        have hks : ¬ key = k := fun h9 => hk h9.symm
        simp [seenCount, hks]
      · simp [seenCount, hs, ih]

end WebRun

namespace WebRun

theorem cleanLines_count (s : String) (hs : s.length < 50) :
    ∀ (ls : List String) (seen : List (String × Nat)),
      (cleanLinesAux ls seen).count s ≤ 2 - min 2 (seenCount seen s) := by
  intro ls
  induction ls with
  | nil =>
    intro seen
    simp [cleanLinesAux]
  | cons l ls2 ih =>
    intro seen
    rw [cleanLinesAux]
    by_cases h1 : pyStrip l = ""
    · rw [if_pos h1]; exact ih seen
    · rw [if_neg h1]
      by_cases h2 : skipLine (pyStrip l) = true
      · rw [if_pos h2]; exact ih seen
      · rw [if_neg h2]
        by_cases h3 : (pyStrip l).length < 50
        · rw [if_pos h3]
          have hbump := ih (bumpSeen seen (pyStrip l) (seenCount seen (pyStrip l) + 1))
          rw [seenCount_bumpSeen] at hbump
          by_cases h4 : 2 < seenCount seen (pyStrip l) + 1
          · rw [if_pos h4]
            by_cases hls : pyStrip l = s
            · rw [if_pos hls] at hbump
              rw [hls] at h4 hbump ⊢
              omega
            · rw [if_neg hls] at hbump
              exact hbump
          · rw [if_neg h4]
            by_cases h5 : lowAlphaSkip (pyStrip l) = true
            · rw [if_pos h5]
              by_cases hls : pyStrip l = s
              · rw [if_pos hls] at hbump
                rw [hls] at h4 hbump ⊢
                omega
              · rw [if_neg hls] at hbump
                exact hbump
            · rw [if_neg h5]
              rw [List.count_cons]
              by_cases hls : pyStrip l = s
              · rw [if_pos hls] at hbump
                rw [hls] at h4 hbump ⊢
                simp only [beq_self_eq_true, if_true]
                omega
              · rw [if_neg hls] at hbump
                have hif : (pyStrip l == s) = false := by
                  rw [beq_eq_false_iff_ne]; exact hls
                simp only [hif, Bool.false_eq_true, if_false]
                omega
        · rw [if_neg h3]
          by_cases h5 : lowAlphaSkip (pyStrip l) = true
          · rw [if_pos h5]; exact ih seen
          · rw [if_neg h5]
            rw [List.count_cons]
            have hls : pyStrip l ≠ s := fun h9 => h3 (h9 ▸ hs)
            have hif : (pyStrip l == s) = false := by
              rw [beq_eq_false_iff_ne]; exact hls
            simp only [hif, Bool.false_eq_true, if_false]
            have h6 := ih seen
            omega

end WebRun

namespace WebRun

theorem splitCharAux_no_sep (sep : Char) :
    ∀ (l acc : List Char), sep ∉ acc →
      ∀ x ∈ splitCharAux sep l acc, sep ∉ x := by
  intro l
  induction l with
  | nil =>
    intro acc hacc x hx
    simp [splitCharAux] at hx
    subst hx
    simpa using hacc
  | cons c cs ih =>
    intro acc hacc x hx
    by_cases hc : c = sep
    · rw [splitCharAux, if_pos hc] at hx
      rcases List.mem_cons.mp hx with rfl | hx2
      · simpa using hacc
      · exact ih [] (by simp) x hx2
    · rw [splitCharAux, if_neg hc] at hx
      refine ih (c :: acc) ?_ x hx
      intro hm
      rcases List.mem_cons.mp hm with h9 | h9
      · exact hc h9.symm
      · exact hacc h9

theorem pySplitChar_no_sep (sep : Char) (t : String) :
    ∀ l ∈ pySplitChar sep t, sep ∉ l.data := by
  intro l hl
  unfold pySplitChar at hl
  obtain ⟨cl, hcl, rfl⟩ := List.mem_map.mp hl
  intro hm
  exact splitCharAux_no_sep sep t.data [] (by simp) cl hcl hm

theorem cleaner_pipeline (cl : List String)
    (hprops : ∀ x ∈ cl, x ≠ "" ∧ ('\n' : Char) ∉ x.data ∧
      (∀ c, x.data.head? = some c → c.isWhitespace = false) ∧
      (∀ c, x.data.getLast? = some c → c.isWhitespace = false)) :
    pyStrip (pyJoin "\n\n" (dedupParasAux
      (pySplitNN (collapseNewlines (pyJoin "\n" cl))) [])) = pyJoin "\n" cl ∧
    pySplitNN (pyJoin "\n" cl) = [pyJoin "\n" cl] := by
  obtain ⟨hchain, hhead, hlast⟩ := join_props cl hprops
  have hcollapse : collapseNewlines (pyJoin "\n" cl) = pyJoin "\n" cl := by
    show String.mk (collapseNlAux 0 (pyJoin "\n" cl).data) = _
    rw [collapseNl_noDouble _ 0 (by omega) (fun h9 => absurd h9 (by decide)) hchain]
    simp
  have hsplitNN : pySplitNN (pyJoin "\n" cl) = [pyJoin "\n" cl] := by
    show (splitNNAux (pyJoin "\n" cl).data []).map (fun l => (⟨l⟩ : String)) = _
    rw [splitNN_noDouble _ [] hchain]
    simp
  have hdedup : dedupParasAux [pyJoin "\n" cl] [] = [pyJoin "\n" cl] := by
    by_cases h9 : 20 < (normPara (pyJoin "\n" cl)).length <;>
      simp [dedupParasAux, h9]
  have hstrip : pyStrip (pyJoin "\n" cl) = pyJoin "\n" cl := by
    show String.mk (stripChars (pyJoin "\n" cl).data) = _
    rw [stripChars_eq_self _ hhead hlast]
  refine ⟨?_, hsplitNN⟩
  rw [hcollapse, hsplitNN, hdedup]
  rw [show pyJoin "\n\n" [pyJoin "\n" cl] = pyJoin "\n" cl from rfl]
  exact hstrip

theorem cleaner_structure (t : String) :
    cleanExtractedText t =
      pyJoin "\n" (cleanLinesAux (pySplitChar '\n' t) []) ∧
    pySplitNN (cleanExtractedText t) = [cleanExtractedText t] := by
  by_cases ht : t = ""
  · subst ht
    exact ⟨rfl, rfl⟩
  · have hprops := cleanLines_props (pySplitChar '\n' t) []
      (pySplitChar_no_sep '\n' t)
    obtain ⟨hpipe, hNN⟩ := cleaner_pipeline
      (cleanLinesAux (pySplitChar '\n' t) []) hprops
    have hmain : cleanExtractedText t =
        pyJoin "\n" (cleanLinesAux (pySplitChar '\n' t) []) := by
      rw [cleanExtractedText, if_neg ht]
      exact hpipe
    exact ⟨hmain, by rw [hmain]; exact hNN⟩

/-- Claim C9: the text cleaner suppresses repeated short boilerplate
lines past the second occurrence: in the cleaned output no line shorter
than 50 characters occurs more than twice; and no two surviving
paragraphs whose normal forms (whitespace-collapsed, case-folded) are
longer than 20 characters share the same normal form. -/
theorem claimC9_cleaner (t : String) :
    (∀ s : String, s.length < 50 →
      (pySplitChar '\n' (cleanExtractedText t)).count s ≤ 2) ∧
    (pySplitNN (cleanExtractedText t)).Pairwise
      (fun p q => 20 < (normPara p).length → 20 < (normPara q).length →
        normPara p ≠ normPara q) := by
  obtain ⟨hmain, hNN⟩ := cleaner_structure t
  constructor
  · intro s hs
    rw [hmain]
    by_cases hnil : cleanLinesAux (pySplitChar '\n' t) [] = []
    · rw [hnil]
      refine le_trans (List.count_le_length s _) ?_
      decide
    · rw [splitChar_join _ hnil
        (fun x hx => (cleanLines_props (pySplitChar '\n' t) []
          (pySplitChar_no_sep '\n' t) x hx).2.1)]
      have h6 := cleanLines_count s hs (pySplitChar '\n' t) []
      simpa [seenCount] using h6
  · rw [hNN]
    exact List.pairwise_singleton _ _

/-- Claim C9 witness: the theorem instantiated on a concrete noisy input
with a short line repeated four times. -/
theorem claimC9_cleaner_witness :
    ("ab".length < 50 ∧
      (pySplitChar '\n'
        (cleanExtractedText "first long enough line\nab\nab\nab\nab")).count
        "ab" ≤ 2) :=
  ⟨by decide, (claimC9_cleaner "first long enough line\nab\nab\nab\nab").1
    "ab" (by decide)⟩

end WebRun
